import Mathlib

/-!
Verification development for the DeFiLens crypto blog generator
(`src/main.py`).  The Python source is shallowly embedded: strings are
`List Char` / `String`, each `re.sub` pass of the markdown renderer is a
hand-translated left-to-right scanner with the exact semantics of the
regex it embeds (leftmost, non-overlapping, lazy/greedy as in the
pattern), external services (NewsAPI, Gemini, Together AI, Blogger) are
oracles supplied as function arguments, and the `main` workflow is a
trace-producing skeleton mirroring the script's control flow.
-/

set_option maxRecDepth 8192

/-- Whitespace for Python `str.strip` and the regex class `\s`
(`' '`, `'\t'`, `'\n'`, `'\r'`, `'\x0b'`, `'\x0c'`; the source only ever
handles ASCII text from its own prompts and templates). -/
def pySpace (c : Char) : Bool :=
  c = ' ' || c = '\t' || c = '\n' || c = '\r' || c = '\x0b' || c = '\x0c'

/-- ASCII `str.isalnum` (the sanitizer applies it after the string was
encoded to ASCII). -/
def pyIsAlnum (c : Char) : Bool :=
  c.isAlpha || c.isDigit

/-- ASCII `str.lower` on a single character. -/
def pyLower (c : Char) : Char :=
  if 65 ≤ c.toNat ∧ c.toNat ≤ 90 then Char.ofNat (c.toNat + 32) else c

/-- Python `str.strip()` on a character list. -/
def pyStripL (l : List Char) : List Char :=
  ((l.dropWhile pySpace).reverse.dropWhile pySpace).reverse

/-- Python `str.strip()` on a string. -/
def pyStrip (s : String) : String :=
  String.mk (pyStripL s.data)

/-- Python `str.lower()` on a string (ASCII). -/
def pyLowerStr (s : String) : String :=
  String.mk (s.data.map pyLower)

/-- Case-insensitive prefix test, modelling `re.IGNORECASE` literals. -/
def ciMatches : List Char → List Char → Bool
  | [], _ => true
  | _ :: _, [] => false
  | a :: as, b :: bs => (pyLower a = pyLower b) && ciMatches as bs

/-- Split `cs` at the first occurrence of `delim` (a lazy `(.*?)delim`
search), failing if a character satisfying `stop` appears first; returns
the text before the delimiter and the rest after it.  With
`stop := fun _ => false` this is the `re.DOTALL` variant, with
`stop := (· = '\n')` the single-line variant. -/
def splitSubBefore (delim : List Char) (stop : Char → Bool) :
    List Char → Option (List Char × List Char)
  | [] => none
  | c :: cs =>
    if delim.isPrefixOf (c :: cs) then some ([], (c :: cs).drop delim.length)
    else if stop c then none
    else (splitSubBefore delim stop cs).map (fun p => (c :: p.1, p.2))

/-- A single regex alternative embedded as a matcher: given the suffix of
the text starting at the current scan position, return `some (r, rest)`
when the pattern matches here (`r` the replacement text, `rest` the text
after the match) and `none` otherwise.  Every embedded pattern begins
with at least one literal character, so a match always consumes input. -/
def Matcher : Type := List Char → Option (List Char × List Char)

/-- A matcher whose matches always consume at least one character. -/
def Consuming (M : Matcher) : Prop :=
  ∀ cs r s, M cs = some (r, s) → s.length < cs.length

/-- Fueled core of `re.sub`: scan left to right, replacing each
leftmost, non-overlapping match and resuming after it. -/
def substAux (M : Matcher) : Nat → List Char → List Char
  | 0, cs => cs
  | _ + 1, [] => []
  | fuel + 1, c :: cs =>
    match M (c :: cs) with
    | some (r, s) => r ++ substAux M fuel s
    | none => c :: substAux M fuel cs

/-- The embedding of `re.sub pattern repl text` for a consuming matcher:
fuel `cs.length` suffices because each step consumes at least one
character. -/
def subst (M : Matcher) (cs : List Char) : List Char :=
  substAux M cs.length cs

/-- Characters kept verbatim by the sanitizer's first pass: ASCII
alphanumerics (`str.isalnum` on the ASCII-encoded string). -/
def pyAsciiAlnum (c : Char) : Bool :=
  (65 ≤ c.toNat && c.toNat ≤ 90) || (97 ≤ c.toNat && c.toNat ≤ 122) ||
    (48 ≤ c.toNat && c.toNat ≤ 57)

/-- The character class `[_ -]` collapsed by `sanitize_filename`. -/
def sepChar (c : Char) : Bool :=
  c = '_' || c = ' ' || c = '-'

/-- One character of the generator expression in `sanitize_filename`
(src/main.py line 278): keep alphanumerics, space, dash and underscore,
replace everything else by an underscore. -/
def keepOrUnderscore (c : Char) : Char :=
  if pyAsciiAlnum c || c = ' ' || c = '-' || c = '_' then c else '_'

/-- Matcher for `re.sub(r'[_ -]+', '_', s)` (src/main.py line 279): a
maximal run of underscores, spaces and dashes becomes one underscore. -/
def mSep : Matcher := fun cs =>
  match cs with
  | [] => none
  | c :: rest => if sepChar c then some (['_'], rest.dropWhile sepChar) else none

/-- Embeds `sanitize_filename` (src/main.py lines 273-280).  The
`unicodedata.normalize('NFKD', ...).encode('ascii','ignore')` step is a
library call modelled as dropping all non-ASCII characters; it is exact
on ASCII input and always yields an ASCII string, which is all the later
steps and the theorems below depend on. -/
def sanitize_filename (s : String) : String :=
  let ascii := s.data.filter (fun c => c.toNat < 128)
  let kept := ascii.map keepOrUnderscore
  let stripped := pyStripL kept
  let collapsed := subst mSep stripped
  let lowered := collapsed.map pyLower
  String.mk (lowered.take 100)

/-- Matcher for `re.sub(r'\[.*?\]', '', content)` (src/main.py line
1051): a bracketed span on a single line is deleted (`.` does not match
a newline). -/
def mBracket : Matcher := fun cs =>
  match cs with
  | '[' :: rest =>
    match splitSubBefore ([']']) (fun c => c == '\n') rest with
    | some (_, after) => some ([], after)
    | none => none
  | _ => none

/-- Matcher for `re.sub(r'\s*@\S+', '', content)` (src/main.py line
1054): optional whitespace, an `@`, and at least one following
non-whitespace character are deleted. -/
def mAtToken : Matcher := fun cs =>
  let rest := cs.dropWhile pySpace
  match rest with
  | '@' :: rest2 =>
    let tok := rest2.takeWhile (fun c => !pySpace c)
    if tok.isEmpty then none
    else some ([], rest2.drop tok.length)
  | _ => none

/-- Scheme-and-domain part `https?://(?:www\.)?DOMAIN` of the
placeholder-URL patterns (src/main.py lines 1065-1067), with the
optional-group backtracking of the regex engine. -/
def parseSchemeDomain (domain : List Char) (cs : List Char) : Option (List Char) :=
  if ciMatches ("http".data) cs then
    let cs1 := cs.drop 4
    let afterScheme : Option (List Char) :=
      if ciMatches (['s']) cs1 && ("://".data).isPrefixOf (cs1.drop 1) then some (cs1.drop 4)
      else if ("://".data).isPrefixOf cs1 then some (cs1.drop 3)
      else none
    match afterScheme with
    | none => none
    | some cs3 =>
      if ciMatches ("www.".data) cs3 && ciMatches domain (cs3.drop 4) then
        some ((cs3.drop 4).drop domain.length)
      else if ciMatches domain cs3 then some (cs3.drop domain.length)
      else none
  else none

/-- Matcher for the markdown-link placeholder pattern
`\[[^\]]*\]\(https?://(?:www\.)?DOMAIN[^\)]*\)` (src/main.py line 1065,
`re.IGNORECASE`); the negated classes also match newlines. -/
def mMdPlaceholder (domain : List Char) : Matcher := fun cs =>
  match cs with
  | '[' :: rest =>
    match splitSubBefore ([']']) (fun _ => false) rest with
    | none => none
    | some (_, afterBr) =>
      match afterBr with
      | '(' :: rest2 =>
        match parseSchemeDomain domain rest2 with
        | none => none
        | some rest3 =>
          match splitSubBefore ([')']) (fun _ => false) rest3 with
          | none => none
          | some (_, after) => some ([], after)
      | _ => none
  | _ => none

/-- Matcher for the raw placeholder-URL pattern
`https?://(?:www\.)?DOMAIN\S*` (src/main.py line 1067, `re.IGNORECASE`). -/
def mRawPlaceholder (domain : List Char) : Matcher := fun cs =>
  match parseSchemeDomain domain cs with
  | none => none
  | some rest => some ([], rest.dropWhile (fun c => !pySpace c))

/-- Matcher for the keyword patterns `(?i)KEYWORD.*?(?=\n|$)`
(src/main.py lines 1071-1075): delete from the keyword to the end of
its line, keeping the newline (it is only a lookahead). -/
def mAiLine (kw : List Char) : Matcher := fun cs =>
  if ciMatches kw cs then some ([], (cs.drop kw.length).dropWhile (fun c => c != '\n'))
  else none

/-- Matcher for `<!--.*?-->` with `re.DOTALL` (src/main.py line 1076). -/
def mHtmlComment : Matcher := fun cs =>
  if ("<!--".data).isPrefixOf cs then
    match splitSubBefore ("-->".data) (fun _ => false) (cs.drop 4) with
    | some (_, after) => some ([], after)
    | none => none
  else none

/-- Matcher for `/\*.*?\*/` with `re.DOTALL` (src/main.py line 1077). -/
def mCComment : Matcher := fun cs =>
  if ("/*".data).isPrefixOf cs then
    match splitSubBefore ("*/".data) (fun _ => false) (cs.drop 2) with
    | some (_, after) => some ([], after)
    | none => none
  else none

/-- Matcher for `re.sub(r'\n\s*\n\s*\n+', '\n\n', content)` (src/main.py
line 1083).  A match starts at the first newline of a whitespace run
containing at least three newlines and, by greediness of all three
pieces, extends exactly to the run's last newline. -/
def mBlankRun : Matcher := fun cs =>
  match cs with
  | '\n' :: _ =>
    let run := cs.takeWhile pySpace
    if 3 ≤ (run.filter (fun c => c == '\n')).length then
      let tailWs := run.reverse.takeWhile (fun c => c != '\n')
      some (['\n', '\n'], cs.drop (run.length - tailWs.length))
    else none
  | _ => none

/-- Python `content.split('\n')`. -/
def splitNl : List Char → List (List Char)
  | [] => [[]]
  | c :: cs =>
    if c = '\n' then [] :: splitNl cs
    else
      match splitNl cs with
      | l :: ls => (c :: l) :: ls
      | [] => [[c]]

/-- Python `'\n'.join(...)` on character lists. -/
def joinNl (ls : List (List Char)) : List Char :=
  List.intercalate (['\n']) ls

/-- Python `content.replace('\r\n', '\n')`. -/
def replCRLF : List Char → List Char
  | '\r' :: '\n' :: cs => '\n' :: replCRLF cs
  | c :: cs => c :: replCRLF cs
  | [] => []

/-- The `placeholder_domains` list of src/main.py lines 1057-1062,
including its duplicated `'example.org'` entry. -/
def placeholderDomains : List (List Char) :=
  [("example.com".data), ("example.org".data), ("placeholder.com".data),
   ("yoursite.com".data), ("website.com".data), ("domain.com".data),
   ("site.com".data), ("yourblogname.com".data), ("ai-generated.com".data),
   ("yourcryptoblog.com".data), ("example.org".data)]

/-- The `ai_patterns` line-keyword literals of src/main.py lines 1071-1075. -/
def aiKeywords : List (List Char) :=
  [("note:".data), ("important:".data), ("remember to".data),
   ("please".data), ("you should".data)]

/-- Embeds `clean_ai_artifacts` (src/main.py lines 1048-1091): bracket
removal, `@`-token removal, placeholder-domain removal, AI-comment-line
removal, blank-line collapsing, per-line strip, line-ending
normalisation, and a final strip, in source order. -/
def clean_ai_artifacts_l (l : List Char) : List Char :=
  let l1 := subst mBracket l
  let l2 := subst mAtToken l1
  let l3 := placeholderDomains.foldl
    (fun acc d => subst (mRawPlaceholder d) (subst (mMdPlaceholder d) acc)) l2
  let l4 := aiKeywords.foldl (fun acc kw => subst (mAiLine kw) acc) l3
  let l5 := subst mCComment (subst mHtmlComment l4)
  let l6 := subst mBlankRun l5
  let l7 := joinNl ((splitNl l6).map pyStripL)
  let l8 := (replCRLF l7).map (fun c => if c = '\r' then '\n' else c)
  pyStripL l8

/-- Embeds `clean_ai_artifacts` on strings. -/
def clean_ai_artifacts (s : String) : String :=
  String.mk (clean_ai_artifacts_l s.data)

/-- Matcher for the heading substitutions `MARKER\s*(.*)` (src/main.py
lines 1155-1157): the marker anywhere in the text, greedy whitespace
(which may swallow newlines), and the rest of the line as the capture. -/
def mHeading (marker openT closeT : List Char) : Matcher := fun cs =>
  if marker.isPrefixOf cs then
    let rest := (cs.drop marker.length).dropWhile pySpace
    let cap := rest.takeWhile (fun c => c != '\n')
    some (openT ++ cap ++ closeT, rest.drop cap.length)
  else none

/-- Matcher for the inline substitutions `DELIM(.*?)DELIM` (src/main.py
lines 1159-1162): lazy single-line content between two delimiters. -/
def mInline (delim openT closeT : List Char) : Matcher := fun cs =>
  if delim.isPrefixOf cs then
    match splitSubBefore delim (fun c => c == '\n') (cs.drop delim.length) with
    | some (content, after) => some (openT ++ content ++ closeT, after)
    | none => none
  else none

/-- Attempted match of `^\s*([-*]|\d+\.)\s+(.*)$` at a line-start
position (src/main.py line 1164, `re.MULTILINE`): greedy leading
whitespace (possibly spanning blank lines), a bullet or `N.` marker, at
least one whitespace character, then the rest of the line. -/
def tryListItem (cs : List Char) : Option (List Char × List Char) :=
  let rest := cs.dropWhile pySpace
  let afterMarker : Option (List Char) :=
    match rest with
    | '-' :: r => some r
    | '*' :: r => some r
    | c :: _ =>
      if c.isDigit then
        let ds := rest.takeWhile Char.isDigit
        match rest.drop ds.length with
        | '.' :: r => some r
        | _ => none
      else none
    | [] => none
  match afterMarker with
  | none => none
  | some r =>
    let ws2 := r.takeWhile pySpace
    if ws2.isEmpty then none
    else
      let r2 := r.drop ws2.length
      let cap := r2.takeWhile (fun c => c != '\n')
      some (("<li>".data) ++ cap ++ ("</li>".data), r2.drop cap.length)

/-- Fueled scanner for the `re.MULTILINE` list-item substitution: the
anchor `^` holds at the start of the text and after each newline; after
a match the scan resumes right before the line's newline. -/
def listSubAux : Nat → Bool → List Char → List Char
  | 0, _, cs => cs
  | _ + 1, _, [] => []
  | fuel + 1, atStart, c :: cs =>
    if atStart then
      match tryListItem (c :: cs) with
      | some (r, s) => r ++ listSubAux fuel false s
      | none => c :: listSubAux fuel (c = '\n') cs
    else c :: listSubAux fuel (c = '\n') cs

/-- The list-item pass `re.sub(r'^\s*([-*]|\d+\.)\s+(.*)$', r'<li>\2</li>', ..., flags=re.MULTILINE)`. -/
def listSub (l : List Char) : List Char :=
  listSubAux l.length true l

/-- One-or-more repetitions of `<li>.*?</li>\s*` (src/main.py line 1173,
`re.DOTALL`), returning the matched text verbatim and the rest. -/
def wrapItemsLoop : Nat → List Char → Option (List Char × List Char)
  | 0, _ => none
  | fuel + 1, cs =>
    if ("<li>".data).isPrefixOf cs then
      match splitSubBefore ("</li>".data) (fun _ => false) (cs.drop 4) with
      | none => none
      | some (content, after) =>
        let ws := after.takeWhile pySpace
        let after2 := after.drop ws.length
        let thisItem := ("<li>".data) ++ content ++ ("</li>".data) ++ ws
        match wrapItemsLoop fuel after2 with
        | some (more, rest) => some (thisItem ++ more, rest)
        | none => some (thisItem, after2)
    else none

/-- The `re.search(r'<li>\s*\d+\.', ...)` test inside `wrap_lists`
(src/main.py line 1168). -/
def hasOlMark : List Char → Bool
  | [] => false
  | c :: cs =>
    (if ("<li>".data).isPrefixOf (c :: cs) then
      let r := ((c :: cs).drop 4).dropWhile pySpace
      let ds := r.takeWhile Char.isDigit
      decide (0 < ds.length) && ((r.drop ds.length).head? == some '.')
     else false) || hasOlMark cs

/-- Matcher for `re.sub(r'(<li>.*?</li>\s*)+', wrap_lists, ...)`
(src/main.py lines 1166-1173): the run of list items (with the
whitespace between and after them inside the match) is wrapped in
`<ol>`/`<ul>` depending on `hasOlMark`. -/
def mWrapList : Matcher := fun cs =>
  match wrapItemsLoop cs.length cs with
  | none => none
  | some (matched, rest) =>
    if hasOlMark matched then some (("<ol>".data) ++ matched ++ ("</ol>".data), rest)
    else some (("<ul>".data) ++ matched ++ ("</ul>".data), rest)

/-- Backtracking search for `(.*?)\]\((.*?)\)` after an opening bracket,
on a single line: the alt text ends at the first `](` from which a
closing `)` is reachable on the line. -/
def findLinkParts : Nat → List Char → Option (List Char × List Char × List Char)
  | 0, _ => none
  | fuel + 1, cs =>
    match splitSubBefore ("](".data) (fun c => c == '\n') cs with
    | none => none
    | some (alt1, after1) =>
      match splitSubBefore ([')']) (fun c => c == '\n') after1 with
      | some (src, rest) => some (alt1, src, rest)
      | none =>
        match findLinkParts fuel after1 with
        | none => none
        | some (altMore, src, rest) => some (alt1 ++ ("](".data) ++ altMore, src, rest)

/-- Python `os.path.basename` on a POSIX path. -/
def pyBasename (l : List Char) : List Char :=
  (l.reverse.takeWhile (fun c => c != '/')).reverse

/-- Matcher for `!\[(.*?)\]\((.*?)\)` with the `image_replacer`
replacement (src/main.py lines 1175-1186): an image whose basename
equals the featured image's basename is replaced by the Base64 data URI
(`None` when absent, as in the Python f-string), any other image becomes
a plain `<img>` tag.  The `alt_text.replace('"', '"')` in the source is
the identity and is embedded as such. -/
def mImage (featured b64 : Option (List Char)) : Matcher := fun cs =>
  match cs with
  | '!' :: '[' :: rest =>
    match findLinkParts rest.length rest with
    | none => none
    | some (alt, src, after) =>
      match featured with
      | some path =>
        if pyBasename src = pyBasename path then
          let uri := b64.getD ("None".data)
          some (("<img src=\"".data) ++ uri ++ ("\" alt=\"".data) ++ alt ++
            ("\" class=\"in-content-image\">".data), after)
        else
          some (("<img src=\"".data) ++ src ++ ("\" alt=\"".data) ++ alt ++
            ("\" class=\"in-content-image\">".data), after)
      | none =>
        some (("<img src=\"".data) ++ src ++ ("\" alt=\"".data) ++ alt ++
          ("\" class=\"in-content-image\">".data), after)
  | _ => none

/-- Matcher for the link substitution
`\[(.*?)\]\((.*?)\)` to `<a href="\2" target="_blank" rel="noopener noreferrer">\1</a>`
(src/main.py line 1188). -/
def mLink : Matcher := fun cs =>
  match cs with
  | '[' :: rest =>
    match findLinkParts rest.length rest with
    | none => none
    | some (alt, src, after) =>
      some (("<a href=\"".data) ++ src ++
        ("\" target=\"_blank\" rel=\"noopener noreferrer\">".data) ++ alt ++
        ("</a>".data), after)
  | _ => none

/-- The tag alternatives of `block_tags_re` (src/main.py line 1194)
other than `h\d`. -/
def blockTagNames : List (List Char) :=
  [("ul".data), ("ol".data), ("li".data), ("img".data), (['a']), ("div".data),
   (['p']), ("blockquote".data), ("pre".data), ("table".data),
   ("script".data), ("style".data), ("br".data)]

/-- The `block_tags_re.match(stripped_line)` test: `<` followed
case-insensitively by `h` and a digit or by one of the tag names. -/
def isBlockTagLine (stripped : List Char) : Bool :=
  match stripped with
  | '<' :: rest =>
    (match rest with
     | c :: d :: _ => (pyLower c == 'h') && d.isDigit
     | _ => false) ||
    blockTagNames.any (fun t => ciMatches t rest)
  | _ => false

/-- Flushing `current_paragraph_lines` into a `<p>` element
(src/main.py lines 1199-1202 and analogues). -/
def flushPara (current : List (List Char)) : List (List Char) :=
  if current.isEmpty then []
  else
    let pc := pyStripL (List.intercalate ([' ']) current)
    if pc.isEmpty then [] else [("<p>".data) ++ pc ++ ("</p>".data)]

/-- The paragraph-wrapping line scan of src/main.py lines 1190-1218. -/
def paraScan : List (List Char) → List (List Char) → List (List Char)
  | [], current => flushPara current
  | line :: ls, current =>
    let stripped := pyStripL line
    if stripped.isEmpty then
      flushPara current ++ ([] :: paraScan ls [])
    else if isBlockTagLine stripped then
      flushPara current ++ (line :: paraScan ls [])
    else
      paraScan ls (current ++ [line])

/-- Matcher for `re.sub(r'<p>\s*</p>', '', ...)` (src/main.py line 1222). -/
def mEmptyP : Matcher := fun cs =>
  if ("<p>".data).isPrefixOf cs then
    let r := (cs.drop 3).dropWhile pySpace
    if ("</p>".data).isPrefixOf r then some ([], r.drop 4) else none
  else none

/-- Matcher for `re.sub(r'<p><br\s*/?></p>', '', ...)` (src/main.py line 1223). -/
def mBrP : Matcher := fun cs =>
  if ("<p><br".data).isPrefixOf cs then
    let r := (cs.drop 6).dropWhile pySpace
    match r with
    | '/' :: '>' :: rest => if ("</p>".data).isPrefixOf rest then some ([], rest.drop 4) else none
    | '>' :: rest => if ("</p>".data).isPrefixOf rest then some ([], rest.drop 4) else none
    | _ => none
  else none

/-- Matcher for the H1-demotion pass
`re.sub(r'<h1>(.*?)</h1>', r'<h2>\1</h2>', ...)` (src/main.py line 1224):
only an `<h1>` whose closing tag lies on the same line is rewritten. -/
def mDemoteH1 : Matcher := fun cs =>
  if ("<h1>".data).isPrefixOf cs then
    match splitSubBefore ("</h1>".data) (fun c => c == '\n') (cs.drop 4) with
    | some (content, after) => some (("<h2>".data) ++ content ++ ("</h2>".data), after)
    | none => none
  else none

/-- Embeds `markdown_to_html` (src/main.py lines 1144-1226) on character
lists: the artifact-cleaning pass followed by the heading, inline,
list, list-wrapping, image, link, paragraph and cleanup passes, in
source order. -/
def markdown_to_html_l (featured b64 : Option (List Char)) (l : List Char) : List Char :=
  let t0 := clean_ai_artifacts_l l
  let t1 := subst (mHeading ("###".data) ("<h3>".data) ("</h3>".data)) t0
  let t2 := subst (mHeading ("##".data) ("<h2>".data) ("</h2>".data)) t1
  let t3 := subst (mHeading (['#']) ("<h1>".data) ("</h1>".data)) t2
  let t4 := subst (mInline ("***".data) ("<strong><em>".data) ("</em></strong>".data)) t3
  let t5 := subst (mInline ("**".data) ("<strong>".data) ("</strong>".data)) t4
  let t6 := subst (mInline (['_']) ("<em>".data) ("</em>".data)) t5
  let t7 := subst (mInline (['*']) ("<em>".data) ("</em>".data)) t6
  let t8 := listSub t7
  let t9 := subst mWrapList t8
  let t10 := subst (mImage featured b64) t9
  let t11 := subst mLink t10
  let t12 := joinNl (paraScan (splitNl t11) [])
  let t13 := subst mEmptyP t12
  let t14 := subst mBrP t13
  subst mDemoteH1 t14

/-- Embeds `markdown_to_html` on strings. -/
def markdown_to_html (md : String) (featured b64 : Option String) : String :=
  String.mk (markdown_to_html_l (featured.map String.data) (b64.map String.data) md.data)

/-- Contiguous-substring test used to state properties of rendered HTML. -/
def hasSub (pat : List Char) : List Char → Bool
  | [] => pat.isEmpty
  | c :: cs => pat.isPrefixOf (c :: cs) || hasSub pat cs

/-- Python slicing `s[:n]` on strings. -/
def pyTake (s : String) (n : Nat) : String :=
  String.mk (s.data.take n)

/-- Matcher deleting a literal, for Python `str.replace(lit, '')`. -/
def mLit (lit : List Char) : Matcher := fun cs =>
  if lit.isPrefixOf cs then some ([], cs.drop lit.length) else none

/-- A NewsAPI article record; every field of the JSON dict that
`aggregate_articles` reads, with `none` for an absent (or null) key so
that `article.get(key, '')` is `Option.getD ("")`. -/
structure Article where
  title : Option String := none
  description : Option String := none
  content : Option String := none
  url : Option String := none
  urlToImage : Option String := none
  deriving DecidableEq

/-- The `source_domain` computation of src/main.py line 350:
`source_url.replace('https://', '').replace('http://', '').split('/')[0]`
for a non-empty url, else the empty string. -/
def sourceDomain (source_url : String) : String :=
  if source_url = "" then ""
  else String.mk ((subst (mLit ("http://".data))
    (subst (mLit ("https://".data)) source_url.data)).takeWhile (fun c => c != '/'))

/-- Accumulator of the `aggregate_articles` loop (src/main.py lines
332-337): the Python `None`/`''` falsiness of `image_url` and
`primary_source_url_for_disclaimer` is modelled by the empty string. -/
structure AggState where
  contentPieces : List String
  descPieces : List String
  titles : List String
  imageUrl : String
  primary : String
  domains : List String

/-- One iteration of the `aggregate_articles` loop (src/main.py lines
343-367).  `competitor_domains` is a Python `set` with unspecified
iteration order; it is modelled as a first-occurrence-ordered
duplicate-free list, which fixes an order without changing membership. -/
def aggStep (s : AggState) (a : Article) : AggState :=
  let title := a.title.getD ("")
  let description := a.description.getD ("")
  let content := a.content.getD ("")
  let source_url := a.url.getD ("")
  let article_image := a.urlToImage.getD ("")
  let source_domain := sourceDomain source_url
  { contentPieces := s.contentPieces ++
      (if title ≠ "" then [("### Source: ") ++ title ++ ("\n\n")] else []) ++
      (if description ≠ "" then [description ++ ("\n")] else []) ++
      (if content ≠ "" ∧ pyStrip content ≠ ("[Removed]") ∧ 50 < (pyStrip content).length
        then [content ++ ("\n")] else []),
    descPieces := s.descPieces ++
      (if description ≠ "" ∧ description ≠ ("[Removed]") then [description] else []),
    titles := s.titles ++
      (if title ≠ "" ∧ title ≠ ("[Removed]") then [title] else []),
    imageUrl := if s.imageUrl = "" ∧ article_image ≠ "" then article_image else s.imageUrl,
    primary := if s.imageUrl = "" ∧ article_image ≠ "" then source_url else s.primary,
    domains := if source_domain ≠ "" ∧ ¬ s.domains.contains source_domain
      then s.domains ++ [source_domain] else s.domains }

/-- The consolidated record returned by `aggregate_articles`
(src/main.py lines 383-390). -/
structure Aggregated where
  consolidated_topic : String
  combined_content : String
  combined_description : String
  image_url : String
  competitors : List String
  primary_source_url : String

/-- Embeds `aggregate_articles` (src/main.py lines 323-390). -/
def aggregate_articles (articles : List Article) (category : String) : Option Aggregated :=
  if articles.isEmpty then none
  else
    let st := articles.foldl aggStep ⟨[], [], [], "", "", []⟩
    let primary :=
      if st.primary = "" then
        match articles.head? with
        | some a =>
          match a.url with
          | some u => u
          | none => "https://news.example.com/source-unavailable"
        | none => ""
      else st.primary
    let topic :=
      match st.titles with
      | [] => "Recent Cryptocurrency News"
      | t :: rest =>
        if rest.isEmpty then t
        else
          let s := ("Comprehensive Crypto: ") ++ t ++ (" and more...")
          if 150 < s.length then (pyTake s 150) ++ ("...") else s
    let descs :=
      if st.descPieces.isEmpty then
        [("A deep dive into recent developments in ") ++ category ++ (".")]
      else st.descPieces
    some
      { consolidated_topic := topic,
        combined_content :=
          if st.contentPieces.isEmpty then
            "No substantial content found from sources. AI will generate based on topic."
          else String.intercalate ("\n\n---\n\n") st.contentPieces,
        combined_description := pyStrip (pyTake (String.intercalate (" ") descs) 300),
        image_url := st.imageUrl,
        competitors := st.domains,
        primary_source_url := primary }

/-- The content pieces one article contributes to `combined_content`,
stated per article (spec side of claim C6). -/
def articleContentPieces (a : Article) : List String :=
  let title := a.title.getD ("")
  let description := a.description.getD ("")
  let content := a.content.getD ("")
  (if title ≠ "" then [("### Source: ") ++ title ++ ("\n\n")] else []) ++
    (if description ≠ "" then [description ++ ("\n")] else []) ++
    (if content ≠ "" ∧ pyStrip content ≠ ("[Removed]") ∧ 50 < (pyStrip content).length
      then [content ++ ("\n")] else [])

/-- The description one article contributes to `combined_description`
(spec side of claim C6). -/
def articleDescPiece (a : Article) : Option String :=
  let description := a.description.getD ("")
  if description ≠ "" ∧ description ≠ ("[Removed]") then some description else none

/-- Result of `json.loads` as the topic extractor inspects it: a JSON
array (whose topic entries the script consumes as strings) or any other
JSON value; `json.loads` itself stays an oracle argument. -/
inductive PyJson where
  | list (elems : List String)
  | other

/-- The `text_to_analyze` accumulation of src/main.py lines 435-444:
titles and descriptions of the first 50 articles. -/
def textToAnalyze (articles : List Article) : String :=
  String.join ((articles.take 50).map (fun a =>
    let title := a.title.getD ("")
    let description := a.description.getD ("")
    (if title ≠ "" ∧ title ≠ ("[Removed]") then ("Title: ") ++ title ++ ("\n") else "") ++
      (if description ≠ "" ∧ description ≠ ("[Removed]")
        then ("Description: ") ++ description ++ ("\n\n") else "")))

/-- Fueled scanner for `re.findall(r'"([^"]+)"', text)` (src/main.py
line 471): non-overlapping quoted spans with at least one character. -/
def findallQuoted : Nat → List Char → List String
  | 0, _ => []
  | _ + 1, [] => []
  | fuel + 1, c :: cs =>
    if c = '"' then
      let content := cs.takeWhile (fun d => d != '"')
      if content.isEmpty then findallQuoted fuel cs
      else
        match cs.drop content.length with
        | '"' :: rest => String.mk content :: findallQuoted fuel rest
        | _ => findallQuoted fuel cs
    else findallQuoted fuel cs

/-- The `re.findall(r'"([^"]+)"', s)` fallback parse. -/
def pyFindallQuoted (s : String) : List String :=
  findallQuoted s.data.length s.data

/-- Embeds `extract_multiple_trending_topics` (src/main.py lines
421-480).  `loads` is the `json.loads` oracle and `resp` the outcome of
the retried Gemini call (`none` when every retry failed, which the
enclosing `try` turns into the fallback). -/
def extract_multiple_trending_topics (loads : String → Option PyJson) (modelInit : Bool)
    (articles : List Article) (numTopics : Nat) (resp : Option String) : List String :=
  if !modelInit then List.replicate numTopics ("Latest Cryptocurrency News")
  else if articles.isEmpty then List.replicate numTopics ("Latest Cryptocurrency News")
  else if textToAnalyze articles = "" then List.replicate numTopics ("Latest Cryptocurrency News")
  else
    match resp with
    | none => List.replicate numTopics ("Latest Cryptocurrency News")
    | some text =>
      match loads (pyStrip text) with
      | some (PyJson.list topics) =>
        if numTopics ≤ topics.length then topics.take numTopics
        else List.replicate numTopics ("Latest Cryptocurrency News")
      | some PyJson.other => List.replicate numTopics ("Latest Cryptocurrency News")
      | none =>
        let quoted := pyFindallQuoted text
        if numTopics ≤ quoted.length then quoted.take numTopics
        else List.replicate numTopics ("Latest Cryptocurrency News")

/-- The topics the parsing stage yields from the model response, before
the length test: the JSON array when `json.loads` succeeds on the
stripped text, the quoted spans of the raw text when it raises, nothing
when it yields a non-array or there is no response (spec side of C4). -/
def parsedTopics (loads : String → Option PyJson) (resp : Option String) :
    Option (List String) :=
  match resp with
  | none => none
  | some t =>
    match loads (pyStrip t) with
    | some (PyJson.list l) => some l
    | some PyJson.other => none
    | none => some (pyFindallQuoted t)

/-- The search `re.search(r'```json\s*(.*?)\s*```', text, re.DOTALL)`
of src/main.py line 908: the span between the first ` ```json ` marker
and the next ` ``` `, with surrounding whitespace absorbed by the
greedy/lazy `\s*` groups. -/
def extractJsonFence (t : String) : Option String :=
  match splitSubBefore (("```json").data) (fun _ => false) t.data with
  | none => none
  | some (_, afterOpen) =>
    match splitSubBefore (("```").data) (fun _ => false) afterOpen with
    | none => none
    | some (content, _) => some (String.mk (pyStripL content))

/-- Embeds `perform_research_agent` (src/main.py lines 871-929).
`parse` is the `json.loads` oracle (`none` when it raises), `resp` the
outcome of the retried Gemini call (`none` when the retries were
exhausted, which the enclosing `except` turns into `None`).  A fenced
block is parsed when present (line 908), otherwise the stripped raw
response (line 917); every failure path returns `None`. -/
def perform_research_agent {α : Type} (parse : String → Option α) (modelInit : Bool)
    (resp : Option String) : Option α :=
  if !modelInit then none
  else
    match resp with
    | none => none
    | some t =>
      match extractJsonFence t with
      | some c => parse c
      | none => parse (pyStrip t)

/-- Outcome of one `model.generate_content` call: a response text, or an
exception with an identifying code; `retriable` marks the exception
types the wrapper catches (`InternalServerError`, `ResourceExhausted`,
`DeadlineExceeded`, `RequestException`, `ValueError`). -/
inductive ModelCall where
  | returns (text : String)
  | raises (e : Nat) (retriable : Bool)

/-- Result of a retry loop: the value produced, the number of attempts
made, and the delays slept between failed attempts (in seconds). -/
structure RetryOut (α : Type) where
  result : α
  attempts : Nat
  sleeps : List ℚ

/-- The body of one attempt in `_gemini_generate_content_with_retry`
(src/main.py lines 397-404): an empty or whitespace response raises a
`ValueError` (modelled with code 0), which is one of the caught types. -/
def gemAttempt (mc : ModelCall) : Except (Nat × Bool) String :=
  match mc with
  | ModelCall.returns t => if pyStrip t = "" then Except.error (0, true) else Except.ok t
  | ModelCall.raises e r => Except.error (e, r)

/-- The `for attempt in range(max_retries)` loop of
`_gemini_generate_content_with_retry` (src/main.py lines 396-419),
recursing on the remaining iterations: a caught failure before the last
attempt sleeps `initial_delay * 2 ** attempt + jitter` and retries; the
last attempt (or an uncaught exception) re-raises. -/
def gemLoop (call : Nat → ModelCall) (jit : Nat → ℚ) (initD : ℚ) (maxR : Nat) :
    Nat → Nat → RetryOut (Except Nat String)
  | _, 0 => ⟨Except.error 0, 0, []⟩
  | attempt, rem + 1 =>
    match gemAttempt (call attempt) with
    | Except.ok t => ⟨Except.ok t, 1, []⟩
    | Except.error (e, retr) =>
      if retr ∧ attempt < maxR - 1 then
        let res := gemLoop call jit initD maxR (attempt + 1) rem
        ⟨res.result, res.attempts + 1, (initD * 2 ^ attempt + jit attempt) :: res.sleeps⟩
      else ⟨Except.error e, 1, []⟩

/-- Embeds `_gemini_generate_content_with_retry` at its default
configuration `LLM_MAX_RETRIES = 5`, `LLM_INITIAL_RETRY_DELAY_SECONDS = 5`
(src/main.py lines 80-82, 392); `jit` is the `random.uniform(0, 2)`
oracle. -/
def gemini_generate_content_with_retry (call : Nat → ModelCall) (jit : Nat → ℚ) :
    RetryOut (Except Nat String) :=
  gemLoop call jit 5 5 0 5

/-- Outcome of one NewsAPI request attempt: an HTTP/request error, a
JSON decoding error, or a parsed article list. -/
inductive NewsOut where
  | reqErr
  | jsonErr
  | ok (articles : List Article)

/-- The retry loop of `fetch_newsapi_articles` (src/main.py lines
293-321): request errors sleep `2 ** attempt` and retry up to 3
attempts, then return `[]`; JSON errors return `[]` at once; an empty
article list is returned as `[]`. -/
def fetchLoop (out : Nat → NewsOut) (maxR : Nat) : Nat → Nat → RetryOut (List Article)
  | _, 0 => ⟨[], 0, []⟩
  | attempt, rem + 1 =>
    match out attempt with
    | NewsOut.ok arts => ⟨arts, 1, []⟩
    | NewsOut.jsonErr => ⟨[], 1, []⟩
    | NewsOut.reqErr =>
      if attempt < maxR - 1 then
        let res := fetchLoop out maxR (attempt + 1) rem
        ⟨res.result, res.attempts + 1, ((2 : ℚ) ^ attempt) :: res.sleeps⟩
      else ⟨[], 1, []⟩

/-- Embeds `fetch_newsapi_articles` at its default `max_retries=3`. -/
def fetch_newsapi_articles (out : Nat → NewsOut) : RetryOut (List Article) :=
  fetchLoop out 3 0 3

/-- Outcome of one Together AI image request: an HTTP/request error (the
only retried case), an unexpected response format (the `ValueError`
raised at src/main.py line 551, caught by the generic handler), any
other exception, or generated image bytes (an abstract id). -/
inductive ImgOut where
  | reqErr
  | badFormat
  | otherExn
  | ok (bytes : Nat)

/-- The retry loop of `generate_image_from_hf` (src/main.py lines
532-564): request errors sleep `initial_delay * 2 ** attempt + jitter`
and retry up to 3 attempts, then return `None`; all other failures
return `None` immediately; no path re-raises. -/
def imgLoop (out : Nat → ImgOut) (jit : Nat → ℚ) (initD : ℚ) (maxR : Nat) :
    Nat → Nat → RetryOut (Option Nat)
  | _, 0 => ⟨none, 0, []⟩
  | attempt, rem + 1 =>
    match out attempt with
    | ImgOut.ok b => ⟨some b, 1, []⟩
    | ImgOut.badFormat => ⟨none, 1, []⟩
    | ImgOut.otherExn => ⟨none, 1, []⟩
    | ImgOut.reqErr =>
      if attempt < maxR - 1 then
        let res := imgLoop out jit initD maxR (attempt + 1) rem
        ⟨res.result, res.attempts + 1, (initD * 2 ^ attempt + jit attempt) :: res.sleeps⟩
      else ⟨none, 1, []⟩

/-- Embeds `generate_image_from_hf` at its defaults `max_retries=3`,
`initial_delay=5` (src/main.py line 507), including the missing-API-key
early return. -/
def generate_image_from_hf (hasKey : Bool) (out : Nat → ImgOut) (jit : Nat → ℚ) :
    RetryOut (Option Nat) :=
  if hasKey then imgLoop out jit 5 3 0 3 else ⟨none, 0, []⟩

/-- Python `s.split(sep)` for a one-character separator, keeping empty
segments. -/
def splitOnCh (sep : Char) : List Char → List (List Char)
  | [] => [[]]
  | c :: cs =>
    if c = sep then [] :: splitOnCh sep cs
    else
      match splitOnCh sep cs with
      | l :: ls => (c :: l) :: ls
      | [] => [[c]]

/-- The regex word class `\w` over ASCII text. -/
def pyWordChar (c : Char) : Bool :=
  pyAsciiAlnum c || c = '_'

/-- Fueled scanner for `re.findall(r'\w+', s)`: maximal word-character
runs. -/
def findallWords : Nat → List Char → List String
  | 0, _ => []
  | _ + 1, [] => []
  | fuel + 1, c :: cs =>
    if pyWordChar c then
      let run := (c :: cs).takeWhile pyWordChar
      String.mk run :: findallWords fuel ((c :: cs).drop run.length)
    else findallWords fuel cs

/-- Python `re.findall(r'\w+', s)`. -/
def pyFindallWords (s : String) : List String :=
  findallWords s.data.length s.data

/-- Case-insensitive variant of `splitSubBefore` without a stop class,
for `re.DOTALL | re.IGNORECASE` literals. -/
def splitSubBeforeCI (delim : List Char) : List Char → Option (List Char × List Char)
  | [] => none
  | c :: cs =>
    if ciMatches delim (c :: cs) then some ([], (c :: cs).drop delim.length)
    else (splitSubBeforeCI delim cs).map (fun p => (c :: p.1, p.2))

/-- The `\s*\[(.*?)\]` tail of the metadata patterns: greedy whitespace,
an opening bracket, and the lazy bracket contents (crossing lines under
`re.DOTALL`). -/
def wsBracket (cs : List Char) : Option (List Char × List Char) :=
  match cs.dropWhile pySpace with
  | '[' :: r2 => splitSubBefore ([']']) (fun _ => false) r2
  | _ => none

/-- Search for `KEY\s*\[(.*?)\]` case-insensitively: the engine's lazy
scan tries each occurrence of `KEY` in turn until the bracket part also
matches, and returns the first bracket contents. -/
def findKeyBracket (kw : List Char) : Nat → List Char → Option (List Char)
  | 0, _ => none
  | _ + 1, [] => none
  | fuel + 1, c :: cs =>
    if ciMatches kw (c :: cs) then
      match wsBracket ((c :: cs).drop kw.length) with
      | some (inside, _) => some inside
      | none => findKeyBracket kw fuel cs
    else findKeyBracket kw fuel cs

/-- The `(.*?)\n.*?tags:\s*\[(.*?)\]` part of the metadata pattern at a
fixed start: the lazy title group grows newline by newline (under
`re.DOTALL`) until a `tags: [...]` block follows the chosen newline. -/
def titleNlLoop : Nat → List Char → List Char → Option (String × String)
  | 0, _, _ => none
  | fuel + 1, acc, cs =>
    let seg := cs.takeWhile (fun c => c != '\n')
    match cs.drop seg.length with
    | '\n' :: rest =>
      match findKeyBracket (("tags:").data) rest.length rest with
      | some inside => some (String.mk (acc ++ seg), String.mk inside)
      | none => titleNlLoop fuel (acc ++ seg ++ ['\n']) rest
    | _ => none

/-- The greedy `\s*` before the title group: prefixes of the whitespace
run are tried longest first (index `k` is the number of characters
consumed). -/
def wsTry (cs : List Char) : Nat → Option (String × String)
  | 0 => titleNlLoop cs.length [] cs
  | k + 1 =>
    match titleNlLoop cs.length [] (cs.drop (k + 1)) with
    | some r => some r
    | none => wsTry cs k

/-- Match of `title:\s*(.*?)\n.*?tags:\s*\[(.*?)\]` starting right after
one `title:` occurrence. -/
def tryTitleAt (cs : List Char) : Option (String × String) :=
  wsTry cs (cs.takeWhile pySpace).length

/-- The search
`re.search(r"title:\s*(.*?)\n.*?tags:\s*\[(.*?)\]", content, re.DOTALL | re.IGNORECASE)`
of src/main.py line 1480, returning the raw title and tags groups. -/
def titleTagsSearch : Nat → List Char → Option (String × String)
  | 0, _ => none
  | _ + 1, [] => none
  | fuel + 1, c :: cs =>
    if ciMatches (("title:").data) (c :: cs) then
      match tryTitleAt ((c :: cs).drop 6) with
      | some r => some r
      | none => titleTagsSearch fuel cs
    else titleTagsSearch fuel cs

/-- The search `re.search(r'<h1>(.*?)</h1>', content, re.IGNORECASE | re.DOTALL)`
of src/main.py line 1499, returning the raw heading contents. -/
def findH1 : Nat → List Char → Option String
  | 0, _ => none
  | _ + 1, [] => none
  | fuel + 1, c :: cs =>
    if ciMatches (("<h1>").data) (c :: cs) then
      match splitSubBeforeCI (("</h1>").data) ((c :: cs).drop 4) with
      | some (content, _) => some (String.mk content)
      | none => findH1 fuel cs
    else findH1 fuel cs

/-- Python `list(set(...))` modelled as a first-occurrence-ordered
deduplication (the set's iteration order is unspecified; membership and
distinctness, which the claims are about, do not depend on it). -/
def dedupPy (l : List String) : List String :=
  l.foldl (fun acc x => if acc.contains x then acc else acc ++ [x]) []

/-- Python `[x.strip() for x in s.split(',') if x.strip()]` applied to
the tags/categories bracket contents (src/main.py lines 1487, 1493). -/
def splitLabels (s : String) : List String :=
  ((splitOnCh ',' s.data).map (fun t => String.mk (pyStripL t))).filter (fun t => t ≠ "")

/-- The label cleanup of src/main.py line 1506:
`list(set([label.strip().lower() for label in post_labels if label.strip()]))`. -/
def cleanedLabels (labels : List String) : List String :=
  dedupPy (labels.filterMap (fun l =>
    if pyStrip l ≠ "" then some (pyLowerStr (pyStrip l)) else none))

/-- The raw labels gathered from the metadata block: the tags list plus,
when a `categories: [...]` block exists, the categories list
(src/main.py lines 1484-1496). -/
def bloggerRawLabels (content : String) (tagsStr : String) : List String :=
  splitLabels tagsStr ++
    match findKeyBracket (("categories:").data) content.data.length content.data with
    | some inside => splitLabels (String.mk inside)
    | none => []

/-- The extracted post title: the metadata title when present, else the
first `<h1>` contents, else the fixed default (src/main.py lines
1481-1504). -/
def bloggerPostTitle (content : String) : String :=
  match titleTagsSearch content.data.length content.data with
  | some (title, _) => pyStrip title
  | none =>
    match findH1 content.data.length content.data with
    | some t => pyStrip t
    | none => "Generated Crypto Blog Post"

/-- The cleaned metadata-derived labels of the post (empty when no
metadata block was found). -/
def bloggerMetaLabels (content : String) : List String :=
  match titleTagsSearch content.data.length content.data with
  | some (_, tagsStr) => cleanedLabels (bloggerRawLabels content tagsStr)
  | none => []

/-- The `default_labels` fallback of src/main.py lines 1508-1510: the
lowercased words of the title longer than three characters, first five,
kept with repetitions. -/
def bloggerDefaultLabels (title : String) : List String :=
  (((pyFindallWords title).filter (fun w => 3 < w.length)).map pyLowerStr).take 5

/-- Embeds the label derivation of `post_to_blogger` (src/main.py lines
1480-1514): metadata labels, lowercased, stripped and deduplicated;
title-word fallback when empty; and the `BLOG_CATEGORY` label `crypto`
appended when missing. -/
def post_to_blogger_labels (content : String) : List String :=
  let cleaned := bloggerMetaLabels content
  let labels :=
    if cleaned.isEmpty then bloggerDefaultLabels (bloggerPostTitle content)
    else cleaned
  if labels.contains ("crypto") then labels else labels ++ [("crypto")]

/-- Python `str.split()` with no argument: whitespace-separated tokens,
no empties. -/
def splitWsAux : Nat → List Char → List String
  | 0, _ => []
  | _ + 1, [] => []
  | fuel + 1, c :: cs =>
    if pySpace c then splitWsAux fuel cs
    else
      let run := (c :: cs).takeWhile (fun d => !pySpace d)
      String.mk run :: splitWsAux fuel ((c :: cs).drop run.length)

/-- Python `s.split()`. -/
def pySplitWs (s : String) : List String :=
  splitWsAux s.data.length s.data

/-- The loop of `get_wrapped_text_lines` (src/main.py lines 792-806)
over the remaining words; `widthOf` is the `font.getbbox` width oracle. -/
def wrapLoop (widthOf : String → Nat) (maxW : Nat) : String → List String → List String
  | cur, [] => [cur]
  | cur, w :: ws =>
    let t := pyStrip (cur ++ (" ") ++ w)
    if widthOf t ≤ maxW then wrapLoop widthOf maxW t ws
    else cur :: wrapLoop widthOf maxW w ws

/-- Embeds `get_wrapped_text_lines` (src/main.py lines 785-807). -/
def get_wrapped_text_lines (text : String) (widthOf : String → Nat) (maxW : Nat) :
    List String :=
  if text = "" then []
  else
    match pySplitWs text with
    | [] => []
    | w :: ws => wrapLoop widthOf maxW w ws

/-- The branded overlays `transform_image` composites onto the resized
image: the bottom gradient over the extended area (rows `top` to
`top+height-1`), the logo at the top-right position, and the wrapped
title text lines drawn with a `(2, 2)` shadow offset. -/
inductive Overlay where
  | bottomGradient (top height : Nat)
  | logoTopRight (x y w h : Nat)
  | titleText (lines : List String) (shadowDx shadowDy : Nat)
  deriving DecidableEq

/-- Environment of `transform_image`: whether `BRANDING_LOGO_PATH` is
configured and exists (src/main.py line 750), whether opening the logo
succeeds (line 752), the logo width after the float rescale of lines
753-754 (kept abstract because it is floating-point), and the
`font.getbbox` width oracle. -/
structure ImgEnv where
  logoConfigured : Bool
  logoLoadOk : Bool
  logoScaledW : Nat
  widthOf : String → Nat

/-- Embeds the overlay-application control flow of `transform_image`
(src/main.py lines 660-869) over a 1200x675 content region.  The raster
steps that PIL performs (border trim, resize, crop, enhancement, bottom
strip stretch, JPEG encoding) transform pixels but add or remove no
overlay and are not modelled; the integer geometry is exact:
`int(675*0.25) = 168` extension, `int(1200*0.02) = 24` padding,
`int(675*0.08) = 54` logo height, `int(1200*0.45) = 540` maximal text
width.  Missing input bytes and an image-decoding error are the two
`(None, None)` failure paths (lines 666-668, 864-869). -/
def transform_image (env : ImgEnv) (hasBytes decodeOk : Bool) (title : String) :
    Option (List Overlay) :=
  if !hasBytes then none
  else if !decodeOk then none
  else
    let targetW := 1200
    let targetH := 675
    let extH := targetH * 25 / 100
    let padding := targetW * 2 / 100
    let logoH := targetH * 8 / 100
    let maxTextW := targetW * 45 / 100
    let logo :=
      if env.logoConfigured && env.logoLoadOk then
        [Overlay.logoTopRight (targetW - env.logoScaledW - padding) padding env.logoScaledW logoH]
      else []
    let lines := get_wrapped_text_lines title env.widthOf maxTextW
    let text := if lines.isEmpty then [] else [Overlay.titleText lines 2 2]
    some ([Overlay.bottomGradient targetH extH] ++ logo ++ text)

/-- Test for a logo overlay, used to state claim C8. -/
def isLogoOverlay : Overlay → Bool
  | Overlay.logoTopRight _ _ _ _ => true
  | _ => false

/-- The purpose of a generative-text (Gemini) call in the workflow. -/
inductive TextPurpose where
  | extractTopics
  | filterArticles
  | research
  | content
  deriving DecidableEq

/-- Externally visible events of one `main` run (src/main.py lines
1616-1779), in execution order. -/
inductive Ev where
  | fetchArticles
  | textCall (p : TextPurpose)
  | imageCall
  | composite
  | mdToHtml
  | writeHtml
  | blogApiCall
  deriving DecidableEq

/-- Embeds `filter_articles_by_topic` (src/main.py lines 482-505):
without a model, the first ten articles; with a parsed index list, the
in-range articles in that order; on any failure (retries exhausted,
unparsable or non-list response, modelled by `none`), the first ten. -/
def filter_articles_by_topic (modelInit : Bool) (outcome : Option (List Nat))
    (articles : List Article) : List Article :=
  if !modelInit then articles.take 10
  else
    match outcome with
    | some idxs => idxs.filterMap (fun i => articles.get? i)
    | none => articles.take 10

/-- Oracles and configuration of one `main` run.  `geminiOn` is
`GEMINI_API_KEY` being set (which is also when the two models are
initialised, src/main.py lines 134-141), `togetherOn` is
`TOGETHER_API_KEY`, `bloggerOn` is the line-1761 condition (valid
credentials and a configured blog id).  Per-blog call outcomes are
indexed by the 0-based topic index: `filterOutcome` is the parsed index
list of `filter_articles_by_topic` (`none` = failure), `imgOk` whether
`generate_image_from_hf` returned bytes, `transformOk` whether
`transform_image` produced a file, `researchOk` whether
`perform_research_agent` returned a truthy value, and `contentOk`
whether `generate_content_agent` returned content. -/
structure RunEnv where
  geminiOn : Bool
  togetherOn : Bool
  bloggerOn : Bool
  newsOut : Nat → NewsOut
  loads : String → Option PyJson
  extractResp : Option String
  filterOutcome : Nat → Option (List Nat)
  imgOk : Nat → Bool
  transformOk : Nat → Bool
  researchOk : Nat → Bool
  contentOk : Nat → Bool

/-- Whether `extract_multiple_trending_topics` reaches its Gemini call
(src/main.py lines 426-448 guard the call at line 462). -/
def extractMakesCall (modelInit : Bool) (articles : List Article) : Bool :=
  modelInit && !articles.isEmpty && (textToAnalyze articles != "")

/-- The events of one iteration of the per-topic loop of `main`
(src/main.py lines 1653-1777): filter (Gemini call when a model
exists), aggregation (a skip when it yields none), image generation and
compositing (when `TOGETHER_API_KEY` is set), research and content
generation (each Gemini calls, each a skip of the blog on falsy
output), saving (markdown conversion then the HTML file write inside
`save_blog_post`), and the Blogger insert. -/
def topicTrace (env : RunEnv) (arts : List Article) (i : Nat) : List Ev :=
  let selected := filter_articles_by_topic env.geminiOn (env.filterOutcome i) arts
  (if env.geminiOn then [Ev.textCall TextPurpose.filterArticles] else []) ++
    match aggregate_articles selected ("crypto") with
    | none => []
    | some _ =>
      (if env.togetherOn then
        [Ev.imageCall] ++ (if env.imgOk i then [Ev.composite] else [])
      else []) ++
        (if env.geminiOn then
          [Ev.textCall TextPurpose.research] ++
            (if env.researchOk i then
              [Ev.textCall TextPurpose.content] ++
                (if env.contentOk i then
                  [Ev.mdToHtml, Ev.writeHtml] ++
                    (if env.bloggerOn then [Ev.blogApiCall] else [])
                else [])
            else [])
        else
          [Ev.mdToHtml, Ev.writeHtml] ++
            (if env.bloggerOn then [Ev.blogApiCall] else []))

/-- The event trace of one `main` run (src/main.py lines 1616-1779):
one NewsAPI fetch; an early return when it yields no articles; one
topic-extraction Gemini call (when the model exists and there is text
to analyse); then the per-topic loop over the extracted topics with
`NUM_BLOGS_TO_CREATE = 3`. -/
def mainTrace (env : RunEnv) : List Ev :=
  let arts := (fetch_newsapi_articles env.newsOut).result
  [Ev.fetchArticles] ++
    if arts.isEmpty then []
    else
      let topics := extract_multiple_trending_topics env.loads env.geminiOn arts 3 env.extractResp
      (if extractMakesCall env.geminiOn arts then [Ev.textCall TextPurpose.extractTopics] else []) ++
        (topics.enum.map (fun p => topicTrace env arts p.1)).flatten

/-- An article with no usable fields, on which the aggregator's two
fallback texts fire. -/
def c6article : Article := {}

/-- A witness article with all three kinds of usable fields. -/
def c6warticle : Article :=
  { title := some ("Bitcoin news"), description := some ("A description"),
    content := some ("short"), url := none, urlToImage := none }

/-- A model response that is valid JSON in its entirety while its
embedded ```json fence holds only a comma:
`json.loads` succeeds on the whole text and raises on the fence
content. -/
def c5raw : String := "\x7b\"a\": \"```json ,```\"\x7d"

/-- A `json.loads` oracle agreeing with Python on the two strings the
run inspects: the whole response parses, the fenced comma does not. -/
def c5parse : String → Option Nat := fun s => if s = c5raw then some 1 else none

/-- An always-raising Gemini oracle with a retriable error. -/
def c3call : Nat → ModelCall := fun _ => ModelCall.raises 7 true

/-- A zero-jitter oracle. -/
def c3jit : Nat → ℚ := fun _ => 0

/-- The environment of a run without a configured branding logo
(`BRANDING_LOGO_PATH` defaults to `None`, src/main.py line 66). -/
def c8env : ImgEnv := ⟨false, false, 0, fun _ => 0⟩

/-- An environment with a configured logo for the C8 witness. -/
def c8wenv : ImgEnv := ⟨true, true, 300, fun _ => 10⟩

/-- Test for a generative-text call event. -/
def isTextCallEv : Ev → Bool
  | Ev.textCall _ => true
  | _ => false

/-- A concrete fetched article for the C2 run. -/
def exArticle : Article :=
  { title := some ("Bitcoin rallies"), description := some ("Market news"),
    content := none, url := some ("https://news.site/a"), urlToImage := none }

/-- A fully successful run environment: every key configured, one
article fetched, topic extraction falling back (its call still made),
and every per-topic call succeeding. -/
def c2env : RunEnv :=
  { geminiOn := true, togetherOn := true, bloggerOn := true,
    newsOut := fun _ => NewsOut.ok [exArticle], loads := fun _ => none,
    extractResp := none, filterOutcome := fun _ => none,
    imgOk := fun _ => true, transformOk := fun _ => true,
    researchOk := fun _ => true, contentOk := fun _ => true }

theorem splitSubBefore_length (delim : List Char) (stop : Char → Bool) :
    ∀ cs b a, splitSubBefore delim stop cs = some (b, a) → a.length ≤ cs.length := by
  intro cs
  induction cs with
  | nil => intro b a h; simp [splitSubBefore] at h
  | cons c cs ih =>
    intro b a h
    simp only [splitSubBefore] at h
    by_cases hp : delim.isPrefixOf (c :: cs) = true
    · simp only [hp, if_true, Option.some.injEq, Prod.mk.injEq] at h
      obtain ⟨_, ha⟩ := h
      subst ha
      simp
    · simp only [hp, if_false, Bool.false_eq_true] at h
      by_cases hs : stop c = true
      · simp [hs] at h
      · simp only [hs, if_false, Bool.false_eq_true, Option.map_eq_some'] at h
        obtain ⟨⟨b1, a1⟩, hp1, hp2⟩ := h
        have h1 := ih b1 a1 hp1
        have ha : a = a1 := by
          have := hp2
          simp at this
          exact this.2.symm
        subst ha
        simp
        omega

theorem substAux_congr (M : Matcher) (hM : Consuming M) :
    ∀ f g cs, cs.length ≤ f → cs.length ≤ g → substAux M f cs = substAux M g cs := by
  intro f
  induction f with
  | zero =>
    intro g cs hf _
    have : cs = [] := List.length_eq_zero.mp (Nat.le_zero.mp hf)
    subst this
    cases g <;> simp [substAux]
  | succ f ih =>
    intro g cs hf hg
    cases cs with
    | nil => cases g <;> simp [substAux]
    | cons c cs =>
      cases g with
      | zero => simp at hg
      | succ g =>
        simp only [substAux]
        cases h : M (c :: cs) with
        | some p =>
          obtain ⟨r, s⟩ := p
          have hlt : s.length < (c :: cs).length := hM _ _ _ h
          simp only [List.length_cons] at hlt hf hg
          have h1 : s.length ≤ f := by omega
          have h2 : s.length ≤ g := by omega
          simp only
          rw [ih g s h1 h2]
        | none =>
          simp only [List.length_cons] at hf hg
          have h1 : cs.length ≤ f := by omega
          have h2 : cs.length ≤ g := by omega
          simp only
          rw [ih g cs h1 h2]

theorem subst_nil (M : Matcher) : subst M [] = [] := rfl

theorem subst_cons_none (M : Matcher) (c : Char) (cs : List Char)
    (h : M (c :: cs) = none) : subst M (c :: cs) = c :: subst M cs := by
  simp [subst, substAux, h]

theorem subst_cons_some (M : Matcher) (hM : Consuming M) (c : Char)
    (cs r s : List Char) (h : M (c :: cs) = some (r, s)) :
    subst M (c :: cs) = r ++ subst M s := by
  have hlt : s.length < (c :: cs).length := hM _ _ _ h
  simp only [subst, List.length_cons, substAux, h]
  rw [substAux_congr M hM cs.length s.length s (by simp at hlt; omega) (le_refl _)]

theorem toNat_ofNat_valid (n : Nat) (h : n.isValidChar) : (Char.ofNat n).toNat = n := by
  simp only [Char.ofNat, dif_pos h]
  simp [Char.ofNatAux, Char.toNat, UInt32.toNat, UInt32.ofNat', BitVec.toNat_ofNatLt]

theorem mSep_consuming : Consuming mSep := by
  intro cs r s h
  cases cs with
  | nil => simp [mSep] at h
  | cons c rest =>
    simp only [mSep] at h
    by_cases hc : sepChar c = true
    · simp only [hc, if_true, Option.some.injEq, Prod.mk.injEq] at h
      obtain ⟨_, hs⟩ := h
      subst hs
      have := (List.dropWhile_sublist (l := rest) sepChar).length_le
      simp
      omega
    · simp [hc] at h

theorem keepOrUnderscore_mem (c : Char) :
    pyAsciiAlnum (keepOrUnderscore c) = true ∨ sepChar (keepOrUnderscore c) = true := by
  unfold keepOrUnderscore
  by_cases h : (pyAsciiAlnum c || c = ' ' || c = '-' || c = '_') = true
  · rw [if_pos h]
    simp only [Bool.or_eq_true, decide_eq_true_eq] at h
    rcases h with ((h | h) | h) | h
    · exact Or.inl h
    · right; simp [sepChar, h]
    · right; simp [sepChar, h]
    · right; simp [sepChar, h]
  · rw [if_neg h]
    right; simp [sepChar]

theorem pyStripL_subset (l : List Char) : ∀ c ∈ pyStripL l, c ∈ l := by
  intro c hc
  unfold pyStripL at hc
  rw [List.mem_reverse] at hc
  have h1 := (List.dropWhile_sublist (l := (l.dropWhile pySpace).reverse) pySpace).mem hc
  rw [List.mem_reverse] at h1
  exact (List.dropWhile_sublist (l := l) pySpace).mem h1

theorem subst_mSep_chars (cs : List Char)
    (h : ∀ c ∈ cs, pyAsciiAlnum c = true ∨ sepChar c = true) :
    ∀ c ∈ subst mSep cs, pyAsciiAlnum c = true ∨ c = '_' := by
  match cs with
  | [] => simp [subst_nil]
  | c :: rest =>
    by_cases hc : sepChar c = true
    · have hm : mSep (c :: rest) = some (['_'], rest.dropWhile sepChar) := by
        simp [mSep, hc]
      rw [subst_cons_some mSep mSep_consuming c rest _ _ hm]
      intro d hd
      rcases List.mem_append.mp hd with h1 | h1
      · simp at h1
        right; exact h1
      · have hlen : (rest.dropWhile sepChar).length < (c :: rest).length := by
          have := (List.dropWhile_sublist (l := rest) sepChar).length_le
          simp; omega
        refine subst_mSep_chars (rest.dropWhile sepChar) ?_ d h1
        intro e he
        exact h e (List.mem_cons_of_mem c ((List.dropWhile_sublist (l := rest) sepChar).mem he))
    · have hm : mSep (c :: rest) = none := by simp [mSep, hc]
      rw [subst_cons_none mSep c rest hm]
      intro d hd
      rcases List.mem_cons.mp hd with h1 | h1
      · subst h1
        rcases h d (List.mem_cons_self d rest) with h2 | h2
        · exact Or.inl h2
        · exact absurd h2 (by simpa using hc)
      · refine subst_mSep_chars rest ?_ d h1
        intro e he
        exact h e (List.mem_cons_of_mem c he)
termination_by cs.length
decreasing_by
  · exact hlen
  · simp

theorem pyLower_target (c : Char) (h : pyAsciiAlnum c = true ∨ c = '_') :
    (48 ≤ (pyLower c).toNat ∧ (pyLower c).toNat ≤ 57) ∨
      (97 ≤ (pyLower c).toNat ∧ (pyLower c).toNat ≤ 122) ∨ pyLower c = '_' := by
  unfold pyLower
  rcases h with h | h
  · simp only [pyAsciiAlnum, Bool.or_eq_true, Bool.and_eq_true, decide_eq_true_eq] at h
    rcases h with (⟨h1, h2⟩ | ⟨h1, h2⟩) | ⟨h1, h2⟩
    · rw [if_pos ⟨h1, h2⟩]
      have hv : (c.toNat + 32).isValidChar := by
        constructor
        omega
      rw [toNat_ofNat_valid _ hv]
      right; left; omega
    · rw [if_neg (by omega)]
      right; left; exact ⟨h1, h2⟩
    · rw [if_neg (by omega)]
      left; exact ⟨h1, h2⟩
  · subst h
    rw [if_neg (by decide)]
    right; right; rfl

/-- C9: `sanitize_filename` returns a string of length at most 100 whose
characters are only lowercase ASCII letters, digits and underscores. -/
theorem C9_sanitize_filename_output (s : String) :
    (sanitize_filename s).length ≤ 100 ∧
      ∀ c ∈ (sanitize_filename s).data,
        (48 ≤ c.toNat ∧ c.toNat ≤ 57) ∨ (97 ≤ c.toNat ∧ c.toNat ≤ 122) ∨ c = '_' := by
  constructor
  · show (String.mk _).length ≤ 100
    simp only [String.length]
    exact List.length_take_le 100 _
  · intro c hc
    simp only [sanitize_filename] at hc
    have hc2 := List.take_subset 100 _ hc
    rw [List.mem_map] at hc2
    obtain ⟨d, hd, hdc⟩ := hc2
    subst hdc
    refine pyLower_target d (subst_mSep_chars _ ?_ d hd)
    intro e he
    have he2 := pyStripL_subset _ e he
    rw [List.mem_map] at he2
    obtain ⟨f, _, hf2⟩ := he2
    subst hf2
    exact keepOrUnderscore_mem f

/-- C1: the spec claims markdown links `[text](url)` and images
`![alt](url)` survive the artifact-cleaning pass and are rendered as
`<a>` / `<img>` tags, and `markdown_to_html` indeed contains dedicated
conversion regexes for both — but `clean_ai_artifacts` (called first,
src/main.py line 1153) deletes every single-line bracketed span via
`re.sub(r'\[.*?\]', '', content)` (line 1051), so the link and image
text is destroyed before those regexes run: on a markdown input with
one link and one image, the output contains no anchor and no image tag
at all. -/
theorem C1_link_image_destroyed_by_cleaning :
    markdown_to_html ("See [CoinDesk](https://coindesk.com) and ![Chart](chart.png)") none none
        = ("<p>See (https://coindesk.com) and !(chart.png)</p>") ∧
      hasSub (("<a").data)
        (markdown_to_html ("See [CoinDesk](https://coindesk.com) and ![Chart](chart.png)") none none).data
        = false ∧
      hasSub (("<img").data)
        (markdown_to_html ("See [CoinDesk](https://coindesk.com) and ![Chart](chart.png)") none none).data
        = false := by
  refine ⟨?_, ?_, ?_⟩ <;> decide

/-- C10: the demotion pass at src/main.py line 1224 (commented `Ensure
no H1 from content`) only rewrites `<h1>...</h1>` pairs that lie on one
line, so a literal `<h1>` element whose closing tag sits on a later
line survives into the rendered fragment, contradicting the claimed
invariant that the output never contains an `<h1>` tag. -/
theorem C10_multiline_h1_survives :
    markdown_to_html ("<h1>Hello\nWorld</h1>") none none = ("<h1>Hello\n<p>World</h1></p>") ∧
      hasSub (("<h1>").data) (markdown_to_html ("<h1>Hello\nWorld</h1>") none none).data = true := by
  refine ⟨?_, ?_⟩ <;> decide

theorem extract_topics_len (loads : String → Option PyJson) (modelInit : Bool)
    (articles : List Article) (numTopics : Nat) (resp : Option String) :
    (extract_multiple_trending_topics loads modelInit articles numTopics resp).length
      = numTopics := by
  unfold extract_multiple_trending_topics
  by_cases hm : modelInit = true
  · simp only [hm, Bool.not_true, Bool.false_eq_true, if_false]
    by_cases he : articles.isEmpty = true
    · simp [he]
    · simp only [he, Bool.false_eq_true, if_false]
      by_cases ht : textToAnalyze articles = ""
      · simp [ht]
      · simp only [ht, if_false]
        cases resp with
        | none => simp
        | some text =>
          simp only
          cases hl : loads (pyStrip text) with
          | none =>
            simp only
            by_cases hq : numTopics ≤ (pyFindallQuoted text).length
            · simp [hq, List.length_take]
            · simp [hq]
          | some v =>
            cases v with
            | list topics =>
              simp only
              by_cases hq : numTopics ≤ topics.length
              · simp [hq, List.length_take]
              · simp [hq]
            | other => simp
  · simp [hm]

/-- C4: `extract_multiple_trending_topics` always returns exactly
`numTopics` strings — the first `numTopics` topics the parsing stage
yields (the JSON array, or the quoted spans of an unparsable response)
when the model is initialised, articles with usable text exist, a
response was obtained, and at least `numTopics` topics were parsed; in
every other case `numTopics` copies of the fallback topic
`Latest Cryptocurrency News`. -/
theorem C4_extract_topics (loads : String → Option PyJson) (modelInit : Bool)
    (articles : List Article) (numTopics : Nat) (resp : Option String) :
    (extract_multiple_trending_topics loads modelInit articles numTopics resp).length
        = numTopics ∧
      extract_multiple_trending_topics loads modelInit articles numTopics resp =
        (match parsedTopics loads resp with
         | some l =>
           if modelInit = true ∧ ¬ articles.isEmpty = true ∧ textToAnalyze articles ≠ ""
               ∧ numTopics ≤ l.length
           then l.take numTopics
           else List.replicate numTopics ("Latest Cryptocurrency News")
         | none => List.replicate numTopics ("Latest Cryptocurrency News")) := by
  refine ⟨extract_topics_len loads modelInit articles numTopics resp, ?_⟩
  unfold extract_multiple_trending_topics parsedTopics
  by_cases hm : modelInit = true
  · simp only [hm, Bool.not_true, Bool.false_eq_true, if_false]
    by_cases he : articles.isEmpty = true
    · cases resp with
      | none => simp [he]
      | some text =>
        simp only [he, if_true]
        cases hl : loads (pyStrip text) with
        | none => simp [he]
        | some v => cases v with
          | list topics => simp [he]
          | other => simp [he]
    · simp only [he, Bool.false_eq_true, if_false]
      by_cases ht : textToAnalyze articles = ""
      · cases resp with
        | none => simp [ht]
        | some text =>
          simp only [ht, if_true]
          cases hl : loads (pyStrip text) with
          | none => simp [ht, he]
          | some v => cases v with
            | list topics => simp [ht, he]
            | other => simp [ht, he]
      · simp only [ht, if_false]
        cases resp with
        | none => simp
        | some text =>
          simp only
          cases hl : loads (pyStrip text) with
          | none =>
            simp only
            by_cases hq : numTopics ≤ (pyFindallQuoted text).length
            · simp [hq, hm, he, ht]
            · simp [hq, hm, he, ht]
          | some v =>
            cases v with
            | list topics =>
              simp only
              by_cases hq : numTopics ≤ topics.length
              · simp [hq, hm, he, ht]
              · simp [hq, hm, he, ht]
            | other => simp
  · cases resp with
    | none => simp [hm]
    | some text =>
      simp only [hm]
      cases hl : loads (pyStrip text) with
      | none => simp [hm]
      | some v => cases v with
        | list topics => simp [hm]
        | other => simp [hm]

theorem pyStripL_length_le (l : List Char) : (pyStripL l).length ≤ l.length := by
  unfold pyStripL
  have h1 := (List.dropWhile_sublist (l := (l.dropWhile pySpace).reverse) pySpace).length_le
  have h2 := (List.dropWhile_sublist (l := l) pySpace).length_le
  simp at h1 ⊢
  omega

theorem aggStep_fold (articles : List Article) : ∀ (s : AggState),
    (articles.foldl aggStep s).contentPieces
        = s.contentPieces ++ articles.flatMap articleContentPieces ∧
      (articles.foldl aggStep s).descPieces
        = s.descPieces ++ articles.filterMap articleDescPiece := by
  induction articles with
  | nil => intro s; simp
  | cons a rest ih =>
    intro s
    simp only [List.foldl_cons, List.flatMap_cons, List.filterMap_cons]
    have h := ih (aggStep s a)
    constructor
    · rw [h.1]
      simp only [aggStep, articleContentPieces]
      simp [List.append_assoc]
    · rw [h.2]
      simp only [aggStep, articleDescPiece]
      by_cases hd : (a.description.getD ("") ≠ "" ∧ a.description.getD ("") ≠ ("[Removed]"))
      · rw [if_pos hd, if_pos hd]
        simp
      · rw [if_neg hd, if_neg hd]
        simp

/-- C6 counterexample: on a non-empty article list with no usable
descriptions, `combined_description` is not the (empty) space-joined
truncated description text the claim prescribes but a fixed fallback
sentence, and `combined_content` is likewise a fixed placeholder rather
than a `---`-separated merge of the (absent) pieces. -/
theorem C6_counterexample :
    (aggregate_articles [c6article] ("crypto")).map (fun r => r.combined_description)
        = some ("A deep dive into recent developments in crypto.") ∧
      ([c6article].filterMap articleDescPiece = ([] : List String) ∧
        pyStrip (pyTake (String.intercalate (" ")
          ([c6article].filterMap articleDescPiece)) 300) = "") ∧
      (aggregate_articles [c6article] ("crypto")).map (fun r => r.combined_content)
        = some ("No substantial content found from sources. AI will generate based on topic.") := by
  refine ⟨?_, ⟨?_, ?_⟩, ?_⟩ <;> decide

/-- C6 (amended): for every non-empty article list, `aggregate_articles`
returns a record whose `combined_content` merges the per-article pieces
(title header, description, and substantial content — stripped content
longer than 50 characters and not `[Removed]`) with `---` separators,
falling back to a fixed placeholder when no piece exists; and whose
`combined_description` is the space-joined usable descriptions — with a
generic category sentence substituted when there are none — truncated
to at most 300 characters and stripped.  The empty list yields `None`
(`aggregate_articles` is `none` exactly on `[]` by definition). -/
theorem C6_aggregate (articles : List Article) (category : String) (h : articles ≠ []) :
    ∃ r, aggregate_articles articles category = some r ∧
      r.combined_content =
        (if articles.flatMap articleContentPieces = [] then
          "No substantial content found from sources. AI will generate based on topic."
        else String.intercalate ("\n\n---\n\n") (articles.flatMap articleContentPieces)) ∧
      r.combined_description =
        pyStrip (pyTake (String.intercalate (" ")
          (if articles.filterMap articleDescPiece = [] then
            [("A deep dive into recent developments in ") ++ category ++ (".")]
          else articles.filterMap articleDescPiece)) 300) ∧
      r.combined_description.length ≤ 300 := by
  have hne : articles.isEmpty = false := by
    cases articles with
    | nil => exact absurd rfl h
    | cons a rest => rfl
  have hfold := aggStep_fold articles ⟨[], [], [], "", "", []⟩
  simp only [List.nil_append] at hfold
  unfold aggregate_articles
  rw [hne]
  simp only [Bool.false_eq_true, if_false]
  refine ⟨_, rfl, ?_, ?_, ?_⟩
  · simp only [hfold.1]
    by_cases hc : articles.flatMap articleContentPieces = []
    · simp [hc]
    · simp [hc]
  · simp only [hfold.2]
    by_cases hd : articles.filterMap articleDescPiece = []
    · simp [hd]
    · simp [hd]
  · show (pyStrip (pyTake _ 300)).length ≤ 300
    unfold pyStrip pyTake
    have h1 := pyStripL_length_le ((String.intercalate (" ")
      (if (articles.foldl aggStep ⟨[], [], [], "", "", []⟩).descPieces.isEmpty then
        [("A deep dive into recent developments in ") ++ category ++ (".")]
      else (articles.foldl aggStep ⟨[], [], [], "", "", []⟩).descPieces)).data.take 300)
    have h2 := List.length_take_le 300 ((String.intercalate (" ")
      (if (articles.foldl aggStep ⟨[], [], [], "", "", []⟩).descPieces.isEmpty then
        [("A deep dive into recent developments in ") ++ category ++ (".")]
      else (articles.foldl aggStep ⟨[], [], [], "", "", []⟩).descPieces)).data)
    simp only [String.length]
    omega

/-- Witness for C6 at a concrete one-article list. -/
theorem C6_aggregate_witness :
    ([c6warticle] ≠ ([] : List Article)) ∧
      (∃ r, aggregate_articles [c6warticle] ("crypto") = some r ∧
        r.combined_content =
          (if [c6warticle].flatMap articleContentPieces = [] then
            "No substantial content found from sources. AI will generate based on topic."
          else String.intercalate ("\n\n---\n\n") ([c6warticle].flatMap articleContentPieces)) ∧
        r.combined_description =
          pyStrip (pyTake (String.intercalate (" ")
            (if [c6warticle].filterMap articleDescPiece = [] then
              [("A deep dive into recent developments in ") ++ ("crypto") ++ (".")]
            else [c6warticle].filterMap articleDescPiece)) 300) ∧
        r.combined_description.length ≤ 300) :=
  ⟨List.cons_ne_nil _ _, C6_aggregate [c6warticle] ("crypto") (List.cons_ne_nil _ _)⟩

theorem dedup_aux_mem (l : List String) :
    ∀ acc x, x ∈ l.foldl (fun acc x => if acc.contains x then acc else acc ++ [x]) acc →
      x ∈ acc ∨ x ∈ l := by
  induction l with
  | nil => intro acc x h; simp at h; exact Or.inl h
  | cons a rest ih =>
    intro acc x h
    simp only [List.foldl_cons] at h
    rcases ih _ x h with h1 | h1
    · by_cases ha : acc.contains a = true
      · rw [if_pos ha] at h1
        exact Or.inl h1
      · rw [if_neg ha] at h1
        rcases List.mem_append.mp h1 with h2 | h2
        · exact Or.inl h2
        · simp at h2
          subst h2
          exact Or.inr (List.mem_cons_self _ _)
    · exact Or.inr (List.mem_cons_of_mem _ h1)

theorem dedup_aux_nodup (l : List String) :
    ∀ acc : List String, acc.Nodup →
      (l.foldl (fun (acc : List String) (x : String) =>
        if acc.contains x then acc else acc ++ [x]) acc).Nodup := by
  induction l with
  | nil => intro acc h; simpa using h
  | cons a rest ih =>
    intro acc h
    simp only [List.foldl_cons]
    by_cases ha : acc.contains a = true
    · rw [if_pos ha]
      exact ih _ h
    · rw [if_neg ha]
      refine ih _ ?_
      rw [List.nodup_append]
      refine ⟨h, List.nodup_singleton a, ?_⟩
      intro x hx
      simp only [List.mem_singleton]
      intro hxa
      subst hxa
      exact ha (List.elem_eq_true_of_mem hx)

theorem dedupPy_mem (l : List String) (x : String) (h : x ∈ dedupPy l) : x ∈ l := by
  rcases dedup_aux_mem l [] x h with h1 | h1
  · simp at h1
  · exact h1

theorem dedupPy_nodup (l : List String) : (dedupPy l).Nodup :=
  dedup_aux_nodup l [] List.nodup_nil

theorem pyLower_idem (c : Char) : pyLower (pyLower c) = pyLower c := by
  unfold pyLower
  by_cases h : 65 ≤ c.toNat ∧ c.toNat ≤ 90
  · rw [if_pos h]
    have hv : (c.toNat + 32).isValidChar := Or.inl (by omega)
    rw [if_neg (by rw [toNat_ofNat_valid _ hv]; omega)]
  · rw [if_neg h, if_neg h]

theorem pyLowerStr_idem (s : String) : pyLowerStr (pyLowerStr s) = pyLowerStr s := by
  have hf : pyLower ∘ pyLower = pyLower := funext pyLower_idem
  simp only [pyLowerStr, List.map_map, hf]

/-- C7 counterexample: on an HTML file with no metadata block, the
fallback labels derived from the `<h1>` title are sent with a repeated
entry — the label list is not deduplicated. -/
theorem C7_counterexample :
    post_to_blogger_labels ("<h1>Data Data Systems</h1>")
        = [("data"), ("data"), ("systems"), ("crypto")] ∧
      ¬ (post_to_blogger_labels ("<h1>Data Data Systems</h1>")).Nodup := by
  refine ⟨?_, ?_⟩ <;> decide

/-- C7 (amended): `post_to_blogger` derives the uploaded labels from the
metadata tags and categories (falling back to the over-three-letter
words of the extracted title when none are found), lowercases and
strips them, deduplicates the metadata-derived labels (the fallback
title words are lowercased but may repeat), and always includes the
blog category label `crypto`. -/
theorem C7_labels_properties (content : String) :
    ("crypto") ∈ post_to_blogger_labels content ∧
      (∀ l ∈ post_to_blogger_labels content, pyLowerStr l = l) ∧
      (bloggerMetaLabels content ≠ [] → (post_to_blogger_labels content).Nodup) := by
  refine ⟨?_, ?_, ?_⟩
  · simp only [post_to_blogger_labels]
    by_cases hc : (if (bloggerMetaLabels content).isEmpty
        then bloggerDefaultLabels (bloggerPostTitle content)
        else bloggerMetaLabels content).contains ("crypto") = true
    · rw [if_pos hc]
      exact List.mem_of_elem_eq_true hc
    · rw [if_neg hc]
      exact List.mem_append_right _ (List.mem_singleton_self _)
  · intro l hl
    simp only [post_to_blogger_labels] at hl
    have hbase : ∀ x, (x ∈ (if (bloggerMetaLabels content).isEmpty
        then bloggerDefaultLabels (bloggerPostTitle content)
        else bloggerMetaLabels content)) → pyLowerStr x = x := by
      intro x hx
      by_cases he : (bloggerMetaLabels content).isEmpty = true
      · rw [if_pos he] at hx
        unfold bloggerDefaultLabels at hx
        have hx2 := List.take_subset 5 _ hx
        rw [List.mem_map] at hx2
        obtain ⟨w, _, hw⟩ := hx2
        subst hw
        exact pyLowerStr_idem w
      · rw [if_neg he] at hx
        unfold bloggerMetaLabels at hx
        cases ht : titleTagsSearch content.data.length content.data with
        | none => rw [ht] at hx; simp at hx
        | some p =>
          rw [ht] at hx
          have hx2 := dedupPy_mem _ _ hx
          rw [List.mem_filterMap] at hx2
          obtain ⟨raw, _, hraw⟩ := hx2
          by_cases hne : pyStrip raw ≠ ""
          · rw [if_pos hne] at hraw
            cases hraw
            exact pyLowerStr_idem _
          · rw [if_neg hne] at hraw
            cases hraw
    by_cases hc : (if (bloggerMetaLabels content).isEmpty
        then bloggerDefaultLabels (bloggerPostTitle content)
        else bloggerMetaLabels content).contains ("crypto") = true
    · rw [if_pos hc] at hl
      exact hbase l hl
    · rw [if_neg hc] at hl
      rcases List.mem_append.mp hl with h1 | h1
      · exact hbase l h1
      · simp at h1
        subst h1
        decide
  · intro hne
    simp only [post_to_blogger_labels]
    have he : (bloggerMetaLabels content).isEmpty = false := by
      cases h : bloggerMetaLabels content with
      | nil => exact absurd h hne
      | cons a rest => rfl
    rw [he]
    simp only [Bool.false_eq_true, if_false]
    have hnodup : (bloggerMetaLabels content).Nodup := by
      unfold bloggerMetaLabels
      cases ht : titleTagsSearch content.data.length content.data with
      | none => simp
      | some p => exact dedupPy_nodup _
    by_cases hc : (bloggerMetaLabels content).contains ("crypto") = true
    · rw [if_pos hc]
      exact hnodup
    · rw [if_neg hc]
      rw [List.nodup_append]
      refine ⟨hnodup, List.nodup_singleton _, ?_⟩
      intro x hx
      simp only [List.mem_singleton]
      intro hxc
      subst hxc
      exact hc (List.elem_eq_true_of_mem hx)

/-- Witness for C7 at a concrete metadata block. -/
theorem C7_labels_properties_witness :
    ("crypto") ∈ post_to_blogger_labels ("title: T\ntags: [Alpha, Beta]\n") ∧
      (∀ l ∈ post_to_blogger_labels ("title: T\ntags: [Alpha, Beta]\n"), pyLowerStr l = l) ∧
      (bloggerMetaLabels ("title: T\ntags: [Alpha, Beta]\n") ≠ [] →
        (post_to_blogger_labels ("title: T\ntags: [Alpha, Beta]\n")).Nodup) :=
  C7_labels_properties ("title: T\ntags: [Alpha, Beta]\n")

/-- C5 counterexample: on a response that is valid JSON as raw text but
carries a ```json fence with invalid content, `perform_research_agent`
parses only the fence and returns `None` — although the response
contains valid JSON as the raw response text, which the claim's
`exactly when` promises to return. -/
theorem C5_counterexample :
    perform_research_agent c5parse true (some c5raw) = none ∧
      extractJsonFence c5raw = some (",") ∧
      c5parse (pyStrip c5raw) = some 1 := by
  refine ⟨?_, ?_, ?_⟩ <;> decide

/-- C5 (amended): `perform_research_agent` returns the parsed JSON of
the first ```json fence when one is present and its content parses;
only when no fence is present does it parse the stripped raw response;
in every other case (model not initialised, retries exhausted, or the
chosen text unparsable — even if the other one would parse) it returns
`None`, and the per-topic workflow then skips the blog: no HTML is
written and no Blogger call is made for that topic. -/
theorem C5_research_agent {α : Type} (parse : String → Option α) (modelInit : Bool)
    (resp : Option String) :
    (∀ j : α, perform_research_agent parse modelInit resp = some j ↔
      (modelInit = true ∧ ∃ t, resp = some t ∧
        ((∃ c, extractJsonFence t = some c ∧ parse c = some j) ∨
          (extractJsonFence t = none ∧ parse (pyStrip t) = some j)))) ∧
      (∀ (env : RunEnv) (arts : List Article) (i : Nat),
        env.geminiOn = true → env.researchOk i = false →
          Ev.writeHtml ∉ topicTrace env arts i ∧ Ev.blogApiCall ∉ topicTrace env arts i) := by
  constructor
  · intro j
    unfold perform_research_agent
    by_cases hm : modelInit = true
    · simp only [hm, Bool.not_true, Bool.false_eq_true, if_false]
      cases resp with
      | none => simp
      | some t =>
        simp only
        cases hf : extractJsonFence t with
        | some c => simp [hf]
        | none => simp [hf]
    · simp [hm]
  · intro env arts i hgem hres
    unfold topicTrace
    rw [hgem, hres]
    cases hagg : aggregate_articles (filter_articles_by_topic true (env.filterOutcome i) arts) ("crypto") with
    | none => simp [hagg]
    | some _ =>
      simp only [hagg]
      constructor <;> (intro hmem; split_ifs at hmem <;> simp_all)

/-- Witness for C5: a fence-free response whose raw text parses is
returned, via the characterisation. -/
theorem C5_research_agent_witness :
    perform_research_agent (fun s => if s = ("[1, 2]") then some 37 else none) true
        (some ("[1, 2]")) = some 37 :=
  ((C5_research_agent (fun s => if s = ("[1, 2]") then some 37 else none) true
      (some ("[1, 2]"))).1 37).mpr
    ⟨rfl, ("[1, 2]"), rfl, Or.inr ⟨by decide, by decide⟩⟩

theorem gemLoop_attempts_le (call : Nat → ModelCall) (jit : Nat → ℚ) (initD : ℚ)
    (maxR : Nat) : ∀ rem attempt, (gemLoop call jit initD maxR attempt rem).attempts ≤ rem := by
  intro rem
  induction rem with
  | zero => intro attempt; simp [gemLoop]
  | succ rem ih =>
    intro attempt
    simp only [gemLoop]
    cases gemAttempt (call attempt) with
    | ok t => simp
    | error p =>
      obtain ⟨e, retr⟩ := p
      simp only
      by_cases hc : retr = true ∧ attempt < maxR - 1
      · rw [if_pos hc]
        simp only
        have := ih (attempt + 1)
        omega
      · rw [if_neg hc]
        simp

theorem imgLoop_attempts_le (out : Nat → ImgOut) (jit : Nat → ℚ) (initD : ℚ)
    (maxR : Nat) : ∀ rem attempt, (imgLoop out jit initD maxR attempt rem).attempts ≤ rem := by
  intro rem
  induction rem with
  | zero => intro attempt; simp [imgLoop]
  | succ rem ih =>
    intro attempt
    simp only [imgLoop]
    cases out attempt with
    | ok b => simp
    | badFormat => simp
    | otherExn => simp
    | reqErr =>
      simp only
      by_cases hc : attempt < maxR - 1
      · rw [if_pos hc]
        simp only
        have := ih (attempt + 1)
        omega
      · rw [if_neg hc]
        simp

theorem fetchLoop_attempts_le (out : Nat → NewsOut) (maxR : Nat) :
    ∀ rem attempt, (fetchLoop out maxR attempt rem).attempts ≤ rem := by
  intro rem
  induction rem with
  | zero => intro attempt; simp [fetchLoop]
  | succ rem ih =>
    intro attempt
    simp only [fetchLoop]
    cases out attempt with
    | ok arts => simp
    | jsonErr => simp
    | reqErr =>
      simp only
      by_cases hc : attempt < maxR - 1
      · rw [if_pos hc]
        simp only
        have := ih (attempt + 1)
        omega
      · rw [if_neg hc]
        simp

/-- C3 counterexample: the generative image call
(`generate_image_from_hf`, an external generative call) exhausts its
retries after 3 attempts — not the 5 of `LLM_MAX_RETRIES` — and then
returns `None` normally instead of re-raising the last error (its
return type carries no exception at all: every handler returns
`None`). -/
theorem C3_counterexample :
    (generate_image_from_hf true (fun _ => ImgOut.reqErr) (fun _ => 0)).result = none ∧
      (generate_image_from_hf true (fun _ => ImgOut.reqErr) (fun _ => 0)).attempts = 3 ∧
      (generate_image_from_hf true (fun _ => ImgOut.reqErr) (fun _ => 0)).sleeps
        = [5, 10] := by
  refine ⟨?_, ?_, ?_⟩
  · rfl
  · rfl
  · show [(5 : ℚ) * 2 ^ 0 + 0, 5 * 2 ^ 1 + 0] = [5, 10]
    norm_num

/-- C3 (amended): the Gemini text calls run under
`_gemini_generate_content_with_retry` — at most 5 attempts, delays
`5 * 2 ^ attempt` plus the jitter term between failed attempts, and the
last error re-raised after the fifth failure; the generative image call
retries at most 3 times with the same backoff formula but returns
`None` after the final failure instead of re-raising; the NewsAPI fetch
makes at most 3 attempts with delay `2 ^ attempt` between failures and
returns the empty list after exhausting them. -/
theorem C3_retry_behaviour :
    (∀ (call : Nat → ModelCall) (jit : Nat → ℚ),
      (gemini_generate_content_with_retry call jit).attempts ≤ 5) ∧
      (∀ (call : Nat → ModelCall) (jit : Nat → ℚ),
        (∀ n, ∃ e, gemAttempt (call n) = Except.error (e, true)) →
          (gemini_generate_content_with_retry call jit).attempts = 5 ∧
            (gemini_generate_content_with_retry call jit).sleeps
              = [5 + jit 0, 10 + jit 1, 20 + jit 2, 40 + jit 3] ∧
            ∃ e, gemAttempt (call 4) = Except.error (e, true) ∧
              (gemini_generate_content_with_retry call jit).result = Except.error e) ∧
      (∀ (hasKey : Bool) (out : Nat → ImgOut) (jit : Nat → ℚ),
        (generate_image_from_hf hasKey out jit).attempts ≤ 3) ∧
      (∀ (out : Nat → ImgOut) (jit : Nat → ℚ),
        (∀ n, out n = ImgOut.reqErr) →
          (generate_image_from_hf true out jit).result = none ∧
            (generate_image_from_hf true out jit).attempts = 3 ∧
            (generate_image_from_hf true out jit).sleeps = [5 + jit 0, 10 + jit 1]) ∧
      (∀ out : Nat → NewsOut, (fetch_newsapi_articles out).attempts ≤ 3) ∧
      (∀ out : Nat → NewsOut, (∀ n, out n = NewsOut.reqErr) →
        (fetch_newsapi_articles out).result = [] ∧
          (fetch_newsapi_articles out).attempts = 3 ∧
          (fetch_newsapi_articles out).sleeps = [1, 2]) := by
  refine ⟨?_, ?_, ?_, ?_, ?_, ?_⟩
  · intro call jit
    exact gemLoop_attempts_le call jit 5 5 5 0
  · intro call jit h
    obtain ⟨e0, h0⟩ := h 0
    obtain ⟨e1, h1⟩ := h 1
    obtain ⟨e2, h2⟩ := h 2
    obtain ⟨e3, h3⟩ := h 3
    obtain ⟨e4, h4⟩ := h 4
    refine ⟨?_, ?_, e4, h4, ?_⟩ <;>
      · simp only [gemini_generate_content_with_retry, gemLoop, h0, h1, h2, h3, h4]
        norm_num
  · intro hasKey out jit
    cases hasKey with
    | false => simp [generate_image_from_hf]
    | true =>
      simp only [generate_image_from_hf, if_true]
      exact imgLoop_attempts_le out jit 5 3 3 0
  · intro out jit h
    refine ⟨?_, ?_, ?_⟩ <;>
      · simp only [generate_image_from_hf, if_true, imgLoop, h 0, h 1, h 2]
        norm_num
  · intro out
    exact fetchLoop_attempts_le out 3 3 0
  · intro out h
    refine ⟨?_, ?_, ?_⟩ <;>
      · simp only [fetch_newsapi_articles, fetchLoop, h 0, h 1, h 2]
        norm_num

/-- Witness for C3 at all-failing concrete oracles with zero jitter. -/
theorem C3_retry_behaviour_witness :
    (∀ n, ∃ e, gemAttempt (c3call n) = Except.error (e, true)) ∧
      (gemini_generate_content_with_retry c3call c3jit).attempts = 5 ∧
        (gemini_generate_content_with_retry c3call c3jit).sleeps
          = [5 + c3jit 0, 10 + c3jit 1, 20 + c3jit 2, 40 + c3jit 3] ∧
        ∃ e, gemAttempt (c3call 4) = Except.error (e, true) ∧
          (gemini_generate_content_with_retry c3call c3jit).result = Except.error e :=
  ⟨fun _ => ⟨7, rfl⟩, C3_retry_behaviour.2.1 c3call c3jit (fun _ => ⟨7, rfl⟩)⟩

theorem wrapLoop_ne_nil (widthOf : String → Nat) (maxW : Nat) :
    ∀ (ws : List String) (cur : String), wrapLoop widthOf maxW cur ws ≠ [] := by
  intro ws
  induction ws with
  | nil => intro cur; simp [wrapLoop]
  | cons w rest ih =>
    intro cur
    simp only [wrapLoop]
    by_cases hw : widthOf (pyStrip (cur ++ (" ") ++ w)) ≤ maxW
    · rw [if_pos hw]
      exact ih _
    · rw [if_neg hw]
      simp

theorem get_wrapped_nil_iff (text : String) (widthOf : String → Nat) (maxW : Nat) :
    get_wrapped_text_lines text widthOf maxW = [] ↔ pySplitWs text = [] := by
  unfold get_wrapped_text_lines
  by_cases ht : text = ""
  · subst ht
    simp [pySplitWs, splitWsAux]
  · rw [if_neg ht]
    cases h : pySplitWs text with
    | nil => simp
    | cons w ws =>
      simp only
      constructor
      · intro hc
        exact absurd hc (wrapLoop_ne_nil widthOf maxW ws w)
      · intro hc
        cases hc

/-- C8 counterexample: with no `BRANDING_LOGO_PATH` configured (the
default), a successfully processed image gets the gradient and title
overlays but no logo overlay at all — not the three overlays the
claim promises for every processed image. -/
theorem C8_counterexample :
    transform_image c8env true true ("Crypto Markets Today") =
        some [Overlay.bottomGradient 675 168,
          Overlay.titleText [("Crypto Markets Today")] 2 2] ∧
      ((transform_image c8env true true ("Crypto Markets Today")).getD []).any isLogoOverlay
        = false := by
  refine ⟨?_, ?_⟩ <;> decide

/-- C8 (amended): `transform_image` produces overlays exactly when image
bytes were provided and decode; every produced image carries the black
gradient over the bottom area extending the 1200x675 content region by
`int(675*0.25) = 168` rows; the logo overlay (top-right, at padding 24)
is applied iff `BRANDING_LOGO_PATH` is configured, exists and loads;
and the shadowed wrapped title text is drawn iff the title contains at
least one word. -/
theorem C8_overlays (env : ImgEnv) (hasBytes decodeOk : Bool) (title : String) :
    ((transform_image env hasBytes decodeOk title).isSome ↔
        (hasBytes = true ∧ decodeOk = true)) ∧
      ∀ ov, transform_image env hasBytes decodeOk title = some ov →
        (Overlay.bottomGradient 675 168 ∈ ov ∧
          ((env.logoConfigured = true ∧ env.logoLoadOk = true) ↔
            Overlay.logoTopRight (1200 - env.logoScaledW - 24) 24 env.logoScaledW 54 ∈ ov) ∧
          (pySplitWs title ≠ [] ↔ ∃ ls, Overlay.titleText ls 2 2 ∈ ov)) := by
  constructor
  · unfold transform_image
    cases hasBytes with
    | false => simp
    | true =>
      cases decodeOk with
      | false => simp
      | true => simp
  · intro ov hov
    unfold transform_image at hov
    cases hasBytes with
    | false => simp at hov
    | true =>
      cases decodeOk with
      | false => simp at hov
      | true =>
        simp only [Bool.not_true, Bool.false_eq_true, if_false, Option.some.injEq] at hov
        subst hov
        refine ⟨by simp, ?_, ?_⟩
        · constructor
          · intro ⟨h1, h2⟩
            simp [h1, h2]
          · intro hmem
            by_cases hl : (get_wrapped_text_lines title env.widthOf (1200 * 45 / 100)).isEmpty
            · simp [hl] at hmem
              exact hmem
            · simp [hl] at hmem
              exact hmem
        · constructor
          · intro hw
            have hl : ¬ get_wrapped_text_lines title env.widthOf (1200 * 45 / 100) = [] := by
              intro hc
              exact hw ((get_wrapped_nil_iff title env.widthOf (1200 * 45 / 100)).mp hc)
            refine ⟨get_wrapped_text_lines title env.widthOf (1200 * 45 / 100), ?_⟩
            have hle : (get_wrapped_text_lines title env.widthOf (1200 * 45 / 100)).isEmpty
                = false := by
              cases h : get_wrapped_text_lines title env.widthOf (1200 * 45 / 100) with
              | nil => exact absurd h hl
              | cons a rest => rfl
            simp [hle]
          · intro ⟨ls, hmem⟩ hw
            have hl : get_wrapped_text_lines title env.widthOf (1200 * 45 / 100) = [] :=
              (get_wrapped_nil_iff title env.widthOf (1200 * 45 / 100)).mpr hw
            have hle : (get_wrapped_text_lines title env.widthOf (1200 * 45 / 100)).isEmpty
                = true := by rw [hl]; rfl
            simp only [hle, if_true] at hmem
            by_cases hc : env.logoConfigured && env.logoLoadOk
            · simp [hc] at hmem
            · simp [hc] at hmem

/-- Witness for C8 at a concrete environment with a logo and a
one-word title. -/
theorem C8_overlays_witness :
    (((transform_image c8wenv true true ("Bitcoin")).isSome ↔
        ((true : Bool) = true ∧ (true : Bool) = true)) ∧
      ∀ ov, transform_image c8wenv true true ("Bitcoin") = some ov →
        (Overlay.bottomGradient 675 168 ∈ ov ∧
          ((c8wenv.logoConfigured = true ∧ c8wenv.logoLoadOk = true) ↔
            Overlay.logoTopRight (1200 - c8wenv.logoScaledW - 24) 24 c8wenv.logoScaledW 54 ∈ ov) ∧
          (pySplitWs ("Bitcoin") ≠ [] ↔ ∃ ls, Overlay.titleText ls 2 2 ∈ ov))) :=
  C8_overlays c8wenv true true ("Bitcoin")

/-- C2 counterexample: in a fully successful run the pipeline makes a
generative-text call for article filtering (so research and content are
not the only text calls), makes 10 text calls overall where the claim
allows 2 per published post plus none elsewhere, and places the image
call before the research text call, contradicting the claimed
text-text-image order. -/
theorem C2_counterexample :
    (mainTrace c2env).contains (Ev.textCall TextPurpose.filterArticles) = true ∧
      ((mainTrace c2env).filter isTextCallEv).length = 10 ∧
      (mainTrace c2env).findIdx (fun e => e == Ev.imageCall) <
        (mainTrace c2env).findIdx (fun e => e == Ev.textCall TextPurpose.research) := by
  refine ⟨?_, ?_, ?_⟩ <;> decide

theorem aggregate_eq_none_iff (articles : List Article) (category : String) :
    aggregate_articles articles category = none ↔ articles = [] := by
  unfold aggregate_articles
  cases articles with
  | nil => simp
  | cons a rest => simp

theorem topicTrace_success (env : RunEnv) (arts : List Article) (i : Nat)
    (hgem : env.geminiOn = true) (htog : env.togetherOn = true)
    (hblog : env.bloggerOn = true) (himg : env.imgOk i = true)
    (hres : env.researchOk i = true) (hcon : env.contentOk i = true)
    (hsel : filter_articles_by_topic true (env.filterOutcome i) arts ≠ []) :
    topicTrace env arts i =
      [Ev.textCall TextPurpose.filterArticles, Ev.imageCall, Ev.composite,
        Ev.textCall TextPurpose.research, Ev.textCall TextPurpose.content,
        Ev.mdToHtml, Ev.writeHtml, Ev.blogApiCall] := by
  unfold topicTrace
  rw [hgem, htog, hblog, himg, hres, hcon]
  cases hagg : aggregate_articles (filter_articles_by_topic true (env.filterOutcome i) arts)
      ("crypto") with
  | none => exact absurd ((aggregate_eq_none_iff _ _).mp hagg) hsel
  | some r => simp [hagg]

/-- C2 (amended): a fully successful run with every key configured
fetches once, makes one topic-extraction text call, and then per
published post — three of them, one per extracted topic — makes one
article-filtering text call, one generative-image call, composites the
image, makes the research and content text calls, converts markdown to
HTML, writes the HTML file and makes one blog-hosting call, in that
order. -/
theorem C2_pipeline_order (env : RunEnv)
    (harts : (fetch_newsapi_articles env.newsOut).result ≠ [])
    (htext : textToAnalyze (fetch_newsapi_articles env.newsOut).result ≠ "")
    (hgem : env.geminiOn = true) (htog : env.togetherOn = true)
    (hblog : env.bloggerOn = true)
    (hsel : ∀ i, filter_articles_by_topic true (env.filterOutcome i)
      (fetch_newsapi_articles env.newsOut).result ≠ [])
    (himg : ∀ i, env.imgOk i = true) (hres : ∀ i, env.researchOk i = true)
    (hcon : ∀ i, env.contentOk i = true) :
    mainTrace env =
      [Ev.fetchArticles, Ev.textCall TextPurpose.extractTopics] ++
        (List.replicate 3
          [Ev.textCall TextPurpose.filterArticles, Ev.imageCall, Ev.composite,
            Ev.textCall TextPurpose.research, Ev.textCall TextPurpose.content,
            Ev.mdToHtml, Ev.writeHtml, Ev.blogApiCall]).flatten := by
  simp only [mainTrace]
  have hempty : (fetch_newsapi_articles env.newsOut).result.isEmpty = false := by
    cases h : (fetch_newsapi_articles env.newsOut).result with
    | nil => exact absurd h harts
    | cons a rest => rfl
  rw [hempty]
  simp only [Bool.false_eq_true, if_false]
  have hcall : extractMakesCall env.geminiOn (fetch_newsapi_articles env.newsOut).result
      = true := by
    unfold extractMakesCall
    rw [hgem, hempty]
    simp only [Bool.not_false, Bool.true_and]
    rw [bne_iff_ne]
    exact htext
  rw [hcall]
  obtain ⟨t0, t1, t2, htopics⟩ := List.length_eq_three.mp
    (extract_topics_len env.loads env.geminiOn (fetch_newsapi_articles env.newsOut).result
      3 env.extractResp)
  rw [htopics]
  simp only [List.enum, List.enumFrom, List.map_cons, List.map_nil, List.flatten]
  rw [topicTrace_success env _ 0 hgem htog hblog (himg 0) (hres 0) (hcon 0) (hsel 0),
    topicTrace_success env _ 1 hgem htog hblog (himg 1) (hres 1) (hcon 1) (hsel 1),
    topicTrace_success env _ 2 hgem htog hblog (himg 2) (hres 2) (hcon 2) (hsel 2)]
  rfl

/-- Witness for C2 at the concrete successful environment. -/
theorem C2_pipeline_order_witness :
    ((fetch_newsapi_articles c2env.newsOut).result ≠ [] ∧
        textToAnalyze (fetch_newsapi_articles c2env.newsOut).result ≠ "" ∧
        (∀ i, filter_articles_by_topic true (c2env.filterOutcome i)
          (fetch_newsapi_articles c2env.newsOut).result ≠ [])) ∧
      mainTrace c2env =
        [Ev.fetchArticles, Ev.textCall TextPurpose.extractTopics] ++
          (List.replicate 3
            [Ev.textCall TextPurpose.filterArticles, Ev.imageCall, Ev.composite,
              Ev.textCall TextPurpose.research, Ev.textCall TextPurpose.content,
              Ev.mdToHtml, Ev.writeHtml, Ev.blogApiCall]).flatten :=
  ⟨⟨by decide, by decide,
      fun i => (by decide : filter_articles_by_topic true none [exArticle] ≠ [])⟩,
    C2_pipeline_order c2env (by decide) (by decide) rfl rfl rfl
      (fun i => (by decide : filter_articles_by_topic true none [exArticle] ≠ []))
      (fun i => rfl) (fun i => rfl) (fun i => rfl)⟩
